import Mathlib

/-!
# PixelForge — verification of the document/history model and pixel operators

Shallow embedding of the PixelForge raster editor's core state management
(`src/unnamed/part_000`: the `reducer` with its `pushHistory` helper and the
layer operations), the glitch pixel operator and the warp-renderer guards
(`src/utils/canvasUtils.ts`), and the warp-quad initialization math
(`handleWarpTool` in `src/unnamed/part_000`).

Modelling conventions:
* JavaScript numbers are embedded as `ℚ` (all arithmetic in the embedded
  code paths is exact: additions, subtractions, multiplications, divisions
  and comparisons); pixel bytes and buffer indices are `ℕ`/`ℤ`.
* `HTMLCanvasElement` raster buffers are modelled by value (`RasterBuffer`)
  through an explicit buffer store `Store : ℕ → RasterBuffer`; a layer's
  `imageElement` holds the buffer id (`Option ℕ`).  This makes the
  JavaScript reference/aliasing behaviour (shared canvases, in-place
  mutation) explicit.  In every reachable state the `imageElement` of a
  layer is an `HTMLCanvasElement` (file upload draws the image into a
  canvas, new drawing layers are created as canvases, rasterized text is a
  canvas), so the `instanceof HTMLCanvasElement` test in `DUPLICATE_LAYER`
  is modelled as the `Option` being `some`.
* `Date.now().toString()` (the id generator used by `DUPLICATE_LAYER`) and
  the freshly allocated clone canvas are impure; they enter the embedded
  `reducer` as explicit parameters `now : String` and `fresh : ℕ`.
* `Math.cos`/`Math.sin` of the layer rotation and `Math.sqrt` in the
  triangle-bloat helper are irrational-valued; they enter as parameters
  (`cosv`, `sinv`, `len`) and theorems characterize them by the defining
  equations (`cosv^2 + sinv^2 = 1`, `0 ≤ len ∧ len * len = dx^2 + dy^2`).
* Typography attributes of text layers (font family/size/weight/style,
  alignment, stroke) are not referenced by any operation verified here and
  are omitted from the `Layer` record; the `text` content field is kept.
-/

/-- 2D point with numeric coordinates (`interface Point` in `types.ts`). -/
structure Point where
  x : ℚ
  y : ℚ
deriving DecidableEq

/-- Canvas dimensions (`canvasSize: { width, height }`). -/
structure CSize where
  width : ℚ
  height : ℚ
deriving DecidableEq

/-- `interface FilterState` in `types.ts`: seven scalar adjustments. -/
structure FilterState where
  brightness : ℚ
  contrast : ℚ
  saturation : ℚ
  blur : ℚ
  sepia : ℚ
  grayscale : ℚ
  hueRotate : ℚ
deriving DecidableEq

/-- Drop-shadow parameter group of `EffectState`. -/
structure DropShadowState where
  enabled : Bool
  color : String
  blur : ℚ
  x : ℚ
  y : ℚ
  opacity : ℚ
deriving DecidableEq

/-- Vignette parameter group of `EffectState`. -/
structure VignetteState where
  enabled : Bool
  amount : ℚ
  size : ℚ
deriving DecidableEq

/-- Pixelate parameter group of `EffectState`. -/
structure PixelateState where
  enabled : Bool
  blockSize : ℚ
deriving DecidableEq

/-- Scanlines parameter group of `EffectState`. -/
structure ScanlinesState where
  enabled : Bool
  intensity : ℚ
  spacing : ℚ
deriving DecidableEq

/-- Glitch parameter group of `EffectState`. -/
structure GlitchState where
  enabled : Bool
  offset : ℚ
deriving DecidableEq

/-- `interface EffectState` in `types.ts`: the five effect groups. -/
structure EffectState where
  dropShadow : DropShadowState
  vignette : VignetteState
  pixelate : PixelateState
  scanlines : ScanlinesState
  glitch : GlitchState
deriving DecidableEq

/-- `Layer.type`: `'image' | 'text' | 'drawing'`. -/
inductive LayerType where
  | image
  | text
  | drawing
deriving DecidableEq

/-- `interface WarpPoints` in `types.ts`. -/
structure WarpPoints where
  tl : Point
  tr : Point
  bl : Point
  br : Point
deriving DecidableEq

/-- `interface Layer` in `types.ts` (typography attributes omitted, see the
file header).  `imageElement` holds the id of a buffer in the `Store`. -/
structure Layer where
  id : String
  name : String
  type : LayerType
  visible : Bool
  locked : Bool
  opacity : ℚ
  blendMode : String
  x : ℚ
  y : ℚ
  width : ℚ
  height : ℚ
  rotation : ℚ
  warpPoints : Option WarpPoints
  imageElement : Option ℕ
  text : Option String
  filters : FilterState
  effects : EffectState
deriving DecidableEq

/-- `DEFAULT_FILTERS` in `types.ts`. -/
def DEFAULT_FILTERS : FilterState :=
  { brightness := 100, contrast := 100, saturation := 100,
    blur := 0, sepia := 0, grayscale := 0, hueRotate := 0 }

/-- `DEFAULT_EFFECTS` in `types.ts` (`opacity: 0.5` written as `mkRat 1 2`). -/
def DEFAULT_EFFECTS : EffectState :=
  { dropShadow := { enabled := false, color := "#000000", blur := 10, x := 5, y := 5, opacity := mkRat 1 2 },
    vignette := { enabled := false, amount := 50, size := 50 },
    pixelate := { enabled := false, blockSize := 10 },
    scanlines := { enabled := false, intensity := 20, spacing := 4 },
    glitch := { enabled := false, offset := 10 } }

/-- A `Partial<Layer>` as passed to `UPDATE_LAYER` by the call sites of the
repository (none of which ever writes the `id` field).  A `some` field is a
key present in the partial object; for `Layer`'s own optional fields the
inner `Option` is the written value. -/
structure LayerChanges where
  x : Option ℚ
  y : Option ℚ
  width : Option ℚ
  height : Option ℚ
  rotation : Option ℚ
  visible : Option Bool
  locked : Option Bool
  opacity : Option ℚ
  type : Option LayerType
  warpPoints : Option (Option WarpPoints)
  imageElement : Option (Option ℕ)
  text : Option (Option String)
deriving DecidableEq

/-- The empty partial object `{}` (dispatched by brush/eraser strokes). -/
def emptyChanges : LayerChanges :=
  { x := none, y := none, width := none, height := none, rotation := none,
    visible := none, locked := none, opacity := none, type := none,
    warpPoints := none, imageElement := none, text := none }

/-- The object spread `{ ...l, ...changes }` of `UPDATE_LAYER`. -/
def applyChanges (l : Layer) (c : LayerChanges) : Layer :=
  { l with
    x := c.x.getD l.x,
    y := c.y.getD l.y,
    width := c.width.getD l.width,
    height := c.height.getD l.height,
    rotation := c.rotation.getD l.rotation,
    visible := c.visible.getD l.visible,
    locked := c.locked.getD l.locked,
    opacity := c.opacity.getD l.opacity,
    type := c.type.getD l.type,
    warpPoints := c.warpPoints.getD l.warpPoints,
    imageElement := c.imageElement.getD l.imageElement,
    text := c.text.getD l.text }

/-- Key of a single scalar filter (`SET_LAYER_FILTER` payload). -/
inductive FilterKey where
  | brightness
  | contrast
  | saturation
  | blur
  | sepia
  | grayscale
  | hueRotate
deriving DecidableEq

/-- The computed-key spread `{ ...l.filters, [filter]: value }`. -/
def setFilter (f : FilterState) : FilterKey → ℚ → FilterState
  | .brightness, v => { f with brightness := v }
  | .contrast, v => { f with contrast := v }
  | .saturation, v => { f with saturation := v }
  | .blur, v => { f with blur := v }
  | .sepia, v => { f with sepia := v }
  | .grayscale, v => { f with grayscale := v }
  | .hueRotate, v => { f with hueRotate := v }

/-- Payload of `UPDATE_LAYER_EFFECT`: the effect group key together with the
replacement value for that group (`{ ...l.effects, [effectGroup]: changes }`
replaces the whole group — the call sites always pass a full group). -/
inductive EffectGroupValue where
  | dropShadow (v : DropShadowState)
  | vignette (v : VignetteState)
  | pixelate (v : PixelateState)
  | scanlines (v : ScanlinesState)
  | glitch (v : GlitchState)
deriving DecidableEq

/-- `{ ...l.effects, [effectGroup]: changes }`. -/
def setEffectGroup (e : EffectState) : EffectGroupValue → EffectState
  | .dropShadow v => { e with dropShadow := v }
  | .vignette v => { e with vignette := v }
  | .pixelate v => { e with pixelate := v }
  | .scanlines v => { e with scanlines := v }
  | .glitch v => { e with glitch := v }

/-- `interface EditorState` in `types.ts`. -/
structure EState where
  layers : List Layer
  activeLayerId : Option String
  tool : String
  canvasSize : CSize
  zoom : ℚ
  pan : Point
  brushSize : ℚ
  brushColor : String
  brushHardness : ℚ
  selectionPath : Option (List Point)
  history : List (List Layer)
  historyIndex : ℕ
deriving DecidableEq

/-- `EditorAction` in `types.ts` (payloads as in the source; `REORDER_LAYER`'s
direction `'up'` is the Boolean). -/
inductive EAction where
  | SET_TOOL (t : String)
  | ADD_LAYER (l : Layer)
  | REMOVE_LAYER (id : String)
  | DUPLICATE_LAYER (id : String)
  | SELECT_LAYER (id : String)
  | UPDATE_LAYER (id : String) (changes : LayerChanges)
  | REORDER_LAYER (id : String) (up : Bool)
  | SET_CANVAS_SIZE (sz : CSize)
  | CROP_CANVAS (x y width height : ℚ)
  | SET_ZOOM (z : ℚ)
  | SET_PAN (p : Point)
  | SET_BRUSH_SIZE (b : ℚ)
  | SET_BRUSH_COLOR (c : String)
  | SET_LAYER_FILTER (layerId : String) (filter : FilterKey) (value : ℚ)
  | UPDATE_LAYER_EFFECT (layerId : String) (group : EffectGroupValue)
  | SET_SELECTION_PATH (p : Option (List Point))
  | UNDO
  | REDO
  | PUSH_HISTORY
deriving DecidableEq

/-- `initialState` in `part_000` lines 12-25. -/
def initialState : EState :=
  { layers := [], activeLayerId := none, tool := "move",
    canvasSize := { width := 800, height := 600 }, zoom := 1,
    pan := { x := 0, y := 0 }, brushSize := 10, brushColor := "#ef4444",
    brushHardness := 100, selectionPath := none,
    history := [[]], historyIndex := 0 }

/-- The `pushHistory` helper of the reducer (`part_000` lines 29-41):
truncate the history to the cursor, append the new layer list, drop the
oldest entry when the stack would exceed 20, and point the cursor at the
newest entry.  `state` supplies the old history/cursor, `newState` the rest
of the resulting state (exactly as in the source). -/
def pushHistory (state newState : EState) : EState :=
  let newHistory := state.history.take (state.historyIndex + 1) ++ [newState.layers]
  let newHistory := if 20 < newHistory.length then newHistory.tail else newHistory
  { newState with history := newHistory, historyIndex := newHistory.length - 1 }

/-- JavaScript `expr || null` on an optional id string: the empty string is
falsy, so it collapses to `null` as well. -/
def jsOrNull : Option String → Option String
  | some s => if s = "" then none else some s
  | none => none

/-- The duplicate built by `DUPLICATE_LAYER` (`part_000` lines 100-117):
spread copy with new id (`Date.now().toString()` = `now`), offset position,
fresh copies of `filters` (object spread) and `effects` (JSON round-trip —
a structural copy, hence the identity on this value type), and a freshly
allocated clone canvas (`fresh`) when the layer owns a buffer. -/
def dupLayer (now : String) (fresh : ℕ) (l : Layer) : Layer :=
  { l with
    id := now,
    name := l.name ++ " (Copy)",
    x := l.x + 20,
    y := l.y + 20,
    filters := l.filters,
    effects := l.effects,
    imageElement := l.imageElement.map (fun _ => fresh) }

/-- A placeholder layer used only to express `List.set`-based swapping; the
reducer only reads it at indices proven to be in bounds. -/
def defaultLayer : Layer :=
  { id := "", name := "", type := .drawing, visible := true, locked := false,
    opacity := 1, blendMode := "source-over", x := 0, y := 0, width := 0,
    height := 0, rotation := 0, warpPoints := none, imageElement := none,
    text := none, filters := DEFAULT_FILTERS, effects := DEFAULT_EFFECTS }

/-- The array-destructuring swap of `REORDER_LAYER`
(`[a[i], a[j]] = [a[j], a[i]]`). -/
def swapLayers (l : List Layer) (i j : ℕ) : List Layer :=
  (l.set i (l.getD j defaultLayer)).set j (l.getD i defaultLayer)

/-- The reducer of `part_000` lines 27-199.  `now` stands for
`Date.now().toString()` and `fresh` for the canvas allocated by
`createOffscreenLayer`, both sampled when the action is processed (they are
read only by `DUPLICATE_LAYER`).  Ordinary actions return directly; the
layer-mutating actions fall through to `pushHistory` exactly as in the
source (including the `REORDER_LAYER` early `return state` on a missing id,
and the pushes of an unchanged state on a missing-duplicate-target or an
out-of-bounds reorder). -/
def reducer (now : String) (fresh : ℕ) (state : EState) (action : EAction) : EState :=
  match action with
  | .UNDO =>
      if 0 < state.historyIndex then
        { state with
          layers := state.history.getD (state.historyIndex - 1) [],
          historyIndex := state.historyIndex - 1 }
      else state
  | .REDO =>
      if state.historyIndex + 1 < state.history.length then
        { state with
          layers := state.history.getD (state.historyIndex + 1) [],
          historyIndex := state.historyIndex + 1 }
      else state
  | .SET_TOOL t => { state with tool := t }
  | .SELECT_LAYER id => { state with activeLayerId := some id }
  | .SET_ZOOM z => { state with zoom := z }
  | .SET_PAN p => { state with pan := p }
  | .SET_BRUSH_COLOR c => { state with brushColor := c }
  | .SET_BRUSH_SIZE b => { state with brushSize := b }
  | .SET_SELECTION_PATH p => { state with selectionPath := p }
  | .ADD_LAYER l =>
      pushHistory state
        { state with layers := l :: state.layers, activeLayerId := some l.id }
  | .REMOVE_LAYER id =>
      pushHistory state
        { state with
          layers := state.layers.filter (fun l => l.id != id),
          activeLayerId :=
            if state.activeLayerId = some id then
              jsOrNull ((state.layers.get? 1).map Layer.id)
            else state.activeLayerId }
  | .DUPLICATE_LAYER id =>
      match state.layers.find? (fun l => l.id == id) with
      | some l =>
          pushHistory state
            { state with
              layers := dupLayer now fresh l :: state.layers,
              activeLayerId := some now }
      | none => pushHistory state state
  | .UPDATE_LAYER id changes =>
      pushHistory state
        { state with
          layers := state.layers.map
            (fun l => if l.id == id then applyChanges l changes else l) }
  | .REORDER_LAYER id up =>
      match state.layers.findIdx? (fun l => l.id == id) with
      | none => state
      | some currentIndex =>
          let swapIndex : ℤ := if up then (currentIndex : ℤ) - 1 else (currentIndex : ℤ) + 1
          if 0 ≤ swapIndex ∧ swapIndex < (state.layers.length : ℤ) then
            pushHistory state
              { state with layers := swapLayers state.layers currentIndex swapIndex.toNat }
          else pushHistory state state
  | .SET_CANVAS_SIZE sz => pushHistory state { state with canvasSize := sz }
  | .CROP_CANVAS cx cy cw ch =>
      pushHistory state
        { state with
          canvasSize := { width := cw, height := ch },
          layers := state.layers.map (fun l => { l with x := l.x - cx, y := l.y - cy }),
          tool := "move" }
  | .SET_LAYER_FILTER layerId key value =>
      pushHistory state
        { state with
          layers := state.layers.map
            (fun l => if l.id == layerId then { l with filters := setFilter l.filters key value } else l) }
  | .UPDATE_LAYER_EFFECT layerId group =>
      pushHistory state
        { state with
          layers := state.layers.map
            (fun l => if l.id == layerId then { l with effects := setEffectGroup l.effects group } else l) }
  | .PUSH_HISTORY => pushHistory state state

/-- One history commit with new layer list `L`: the action of `pushHistory`
on a state whose mutation produced `L` (every history-pushing branch of the
reducer factors through this on the `layers`/`history`/`historyIndex`
fields). -/
def commitOne (s : EState) (L : List Layer) : EState :=
  pushHistory s { s with layers := L }

/-- A sequence of history commits, oldest first. -/
def commitList (s : EState) (Ls : List (List Layer)) : EState :=
  Ls.foldl commitOne s

/-- The `UNDO` branch of the reducer (it reads no impure inputs). -/
def undoStep (s : EState) : EState :=
  if 0 < s.historyIndex then
    { s with
      layers := s.history.getD (s.historyIndex - 1) [],
      historyIndex := s.historyIndex - 1 }
  else s

/-- The `REDO` branch of the reducer. -/
def redoStep (s : EState) : EState :=
  if s.historyIndex + 1 < s.history.length then
    { s with
      layers := s.history.getD (s.historyIndex + 1) [],
      historyIndex := s.historyIndex + 1 }
  else s

/-- `undo()` applied `n` times. -/
def undoN (n : ℕ) (s : EState) : EState := undoStep^[n] s

/-- `redo()` applied `n` times. -/
def redoN (n : ℕ) (s : EState) : EState := redoStep^[n] s

/-- Well-formedness of the history stack: the cursor is a valid index and
the stack holds at most 20 entries (both hold in `initialState`). -/
def HistoryWF (s : EState) : Prop :=
  s.historyIndex < s.history.length ∧ s.history.length ≤ 20

/-- The active-layer invariant of the Document model: the active layer id,
when set, references a layer present in the sequence. -/
def ActiveInv (s : EState) : Prop :=
  match s.activeLayerId with
  | none => True
  | some id => id ∈ s.layers.map Layer.id

instance : Decidable (HistoryWF s) := by unfold HistoryWF; infer_instance

instance : DecidablePred ActiveInv := by
  intro s; unfold ActiveInv
  match s.activeLayerId with
  | none => exact inferInstanceAs (Decidable True)
  | some id => exact inferInstanceAs (Decidable (_ ∈ _))

/-! ## History-stack lemmas -/

/-- The newest at-most-20 entries of an entry list. -/
def lastChunk (xs : List (List Layer)) : List (List Layer) :=
  xs.drop (xs.length - 20)

theorem lastChunk_of_le {xs : List (List Layer)} (h : xs.length ≤ 20) :
    lastChunk xs = xs := by
  unfold lastChunk
  rw [Nat.sub_eq_zero_of_le h, List.drop_zero]

theorem length_lastChunk (xs : List (List Layer)) :
    (lastChunk xs).length = min xs.length 20 := by
  unfold lastChunk
  rw [List.length_drop]
  omega

theorem getElem?_lastChunk (xs : List (List Layer)) (j : ℕ) :
    (lastChunk xs)[j]? = xs[(xs.length - 20) + j]? := by
  unfold lastChunk
  rw [List.getElem?_drop]

theorem lastChunk_append_lastChunk (xs ys : List (List Layer)) :
    lastChunk (lastChunk xs ++ ys) = lastChunk (xs ++ ys) := by
  unfold lastChunk
  rw [List.drop_append_eq_append_drop, List.drop_drop, List.drop_append_eq_append_drop]
  congr 1
  · congr 1
    simp [List.length_drop, List.length_append]
    omega
  · congr 1
    simp [List.length_drop, List.length_append]
    omega

/-- Closed form of `pushHistory` for a well-formed source state: the history
becomes the newest 20 of "truncate at the cursor, then append", and the
cursor points at the last entry. -/
theorem pushHistory_eq (s ns : EState) (hIdx : s.historyIndex < s.history.length)
    (hLen : s.history.length ≤ 20) :
    pushHistory s ns =
      { ns with
        history := lastChunk (s.history.take (s.historyIndex + 1) ++ [ns.layers]),
        historyIndex := min (s.historyIndex + 2) 20 - 1 } := by
  unfold pushHistory lastChunk
  have hlen1 : (s.history.take (s.historyIndex + 1) ++ [ns.layers]).length
      = s.historyIndex + 2 := by
    simp [List.length_take, List.length_append]
    omega
  by_cases h : 20 < (s.history.take (s.historyIndex + 1) ++ [ns.layers]).length
  · simp only [if_pos h]
    rw [hlen1] at h
    congr 1
    · rw [← List.drop_one]
      congr 1
      omega
    · simp only [List.length_tail]
      omega
  · simp only [if_neg h]
    rw [hlen1] at h
    congr 1
    · rw [show (s.history.take (s.historyIndex + 1) ++ [ns.layers]).length - 20 = 0 by omega,
        List.drop_zero]
    · omega

/-- A state whose cursor sits on the newest entry of a stack of at most 20
entries (the shape every commit produces). -/
def TopNormal (s : EState) : Prop :=
  s.historyIndex + 1 = s.history.length ∧ s.history.length ≤ 20

/-- Closed form of a commit sequence starting from a top-normal state. -/
theorem commitList_closed (Ls : List (List Layer)) :
    ∀ s : EState, TopNormal s →
    commitList s Ls =
      { s with
        layers := Ls.getLastD s.layers,
        history := lastChunk (s.history ++ Ls),
        historyIndex := min (s.history.length + Ls.length) 20 - 1 } := by
  induction Ls with
  | nil =>
      intro s hs
      obtain ⟨h1, h2⟩ := hs
      show s = _
      rw [List.getLastD_nil, List.append_nil, lastChunk_of_le h2,
        show min (s.history.length + (List.length [])) 20 - 1 = s.historyIndex by
          simp only [List.length_nil]
          omega]
  | cons L Ls ih =>
      intro s hs
      obtain ⟨h1, h2⟩ := hs
      have hIdx : s.historyIndex < s.history.length := by omega
      have hstep : commitList s (L :: Ls) = commitList (commitOne s L) Ls := by
        simp [commitList, List.foldl_cons]
      rw [hstep]
      have hpush : commitOne s L =
          { s with
            layers := L,
            history := lastChunk (s.history ++ [L]),
            historyIndex := min (s.history.length + 1) 20 - 1 } := by
        unfold commitOne
        rw [pushHistory_eq s _ hIdx h2]
        congr 2
        · rw [show s.historyIndex + 1 = s.history.length by omega, List.take_length]
        · omega
      rw [hpush]
      rw [ih _ (by
        constructor
        · simp only [length_lastChunk, List.length_append, List.length_singleton]
          omega
        · simp only [length_lastChunk, List.length_append, List.length_singleton]
          omega)]
      simp only [length_lastChunk, List.length_append, List.length_singleton,
        List.length_cons, List.length_nil, Nat.zero_add]
      rw [lastChunk_append_lastChunk, List.append_assoc, List.singleton_append,
        List.getLastD_cons]
      have harith : min (min (s.history.length + 1) 20 + Ls.length) 20 - 1
          = min (s.history.length + (Ls.length + 1)) 20 - 1 := by omega
      rw [harith]

/-- Closed form of a nonempty commit sequence from any well-formed state:
the part of the old history above the cursor is pruned, the commits are
appended, eviction keeps the newest 20, and the cursor sits on the newest
entry. -/
theorem commitList_cons_closed (s : EState) (L : List Layer) (Ls : List (List Layer))
    (hIdx : s.historyIndex < s.history.length) (hLen : s.history.length ≤ 20) :
    commitList s (L :: Ls) =
      { s with
        layers := Ls.getLastD L,
        history := lastChunk (s.history.take (s.historyIndex + 1) ++ (L :: Ls)),
        historyIndex := min (s.historyIndex + 2 + Ls.length) 20 - 1 } := by
  have hstep : commitList s (L :: Ls) = commitList (commitOne s L) Ls := by
    simp [commitList, List.foldl_cons]
  rw [hstep]
  have hpush : commitOne s L =
      { s with
        layers := L,
        history := lastChunk (s.history.take (s.historyIndex + 1) ++ [L]),
        historyIndex := min (s.historyIndex + 2) 20 - 1 } := by
    unfold commitOne
    exact pushHistory_eq s _ hIdx hLen
  rw [hpush]
  have htake : (s.history.take (s.historyIndex + 1)).length = s.historyIndex + 1 := by
    simp [List.length_take]
    omega
  rw [commitList_closed Ls _ (by
    constructor
    · simp only [length_lastChunk, List.length_append, List.length_singleton, htake]
      omega
    · simp only [length_lastChunk, List.length_append, List.length_singleton, htake]
      omega)]
  simp only [length_lastChunk, List.length_append, List.length_singleton, htake]
  rw [lastChunk_append_lastChunk, List.append_assoc, List.singleton_append]
  congr 1
  omega

/-- `undo()` iterated `n ≤ cursor` times from a state whose `layers` agree
with the entry under the cursor: it walks the cursor back `n` entries and
installs the stored entry. -/
theorem undoN_spec (n : ℕ) :
    ∀ s : EState, n ≤ s.historyIndex →
    s.layers = s.history.getD s.historyIndex [] →
    undoN n s =
      { s with
        layers := s.history.getD (s.historyIndex - n) [],
        historyIndex := s.historyIndex - n } := by
  induction n with
  | zero =>
      intro s _ hcur
      show s = _
      rw [Nat.sub_zero, ← hcur]
  | succ n ih =>
      intro s hn hcur
      have hpos : 0 < s.historyIndex := by omega
      have hstep : undoN (n + 1) s = undoN n (undoStep s) := by
        unfold undoN
        rw [Function.iterate_succ_apply]
      rw [hstep]
      have hu : undoStep s =
          { s with
            layers := s.history.getD (s.historyIndex - 1) [],
            historyIndex := s.historyIndex - 1 } := by
        unfold undoStep
        rw [if_pos hpos]
      rw [hu]
      rw [ih _ (show n ≤ s.historyIndex - 1 by omega)
        (show s.history.getD (s.historyIndex - 1) []
          = s.history.getD (s.historyIndex - 1) [] from rfl)]
      have harith : s.historyIndex - 1 - n = s.historyIndex - (n + 1) := by omega
      show ({ s with
        layers := s.history.getD (s.historyIndex - 1 - n) [],
        historyIndex := s.historyIndex - 1 - n } : EState) = _
      rw [harith]

/-- `redo()` iterated `n` times while the cursor stays in range. -/
theorem redoN_spec (n : ℕ) :
    ∀ s : EState, s.historyIndex + n < s.history.length →
    s.layers = s.history.getD s.historyIndex [] →
    redoN n s =
      { s with
        layers := s.history.getD (s.historyIndex + n) [],
        historyIndex := s.historyIndex + n } := by
  induction n with
  | zero =>
      intro s _ hcur
      show s = _
      rw [Nat.add_zero, ← hcur]
  | succ n ih =>
      intro s hn hcur
      have hlt : s.historyIndex + 1 < s.history.length := by omega
      have hstep : redoN (n + 1) s = redoN n (redoStep s) := by
        unfold redoN
        rw [Function.iterate_succ_apply]
      rw [hstep]
      have hr : redoStep s =
          { s with
            layers := s.history.getD (s.historyIndex + 1) [],
            historyIndex := s.historyIndex + 1 } := by
        unfold redoStep
        rw [if_pos hlt]
      rw [hr]
      rw [ih _ (show s.historyIndex + 1 + n < s.history.length by omega)
        (show s.history.getD (s.historyIndex + 1) []
          = s.history.getD (s.historyIndex + 1) [] from rfl)]
      have harith : s.historyIndex + 1 + n = s.historyIndex + (n + 1) := by omega
      show ({ s with
        layers := s.history.getD (s.historyIndex + 1 + n) [],
        historyIndex := s.historyIndex + 1 + n } : EState) = _
      rw [harith]

theorem getD_lastChunk (xs : List (List Layer)) (j : ℕ) :
    (lastChunk xs).getD j [] = xs.getD (xs.length - 20 + j) [] := by
  simp only [List.getD_eq_getElem?_getD, getElem?_lastChunk]

theorem getD_cons_length (L : List Layer) (Ls : List (List Layer)) :
    (L :: Ls).getD Ls.length [] = Ls.getLastD L := by
  rw [List.getD_eq_getElem?_getD,
    show Ls.length = (L :: Ls).length - 1 by simp,
    ← List.getLast?_eq_getElem?, ← List.getLastD_eq_getLast?, List.getLastD_cons]

/-- Closed form of a single commit from a well-formed state. -/
theorem commitOne_eq (s : EState) (L : List Layer)
    (hIdx : s.historyIndex < s.history.length) (hLen : s.history.length ≤ 20) :
    commitOne s L =
      { s with
        layers := L,
        history := lastChunk (s.history.take (s.historyIndex + 1) ++ [L]),
        historyIndex := min (s.historyIndex + 2) 20 - 1 } := by
  unfold commitOne
  rw [pushHistory_eq s _ hIdx hLen]

/-- A commit preserves well-formedness and leaves the cursor on the newest
entry. -/
theorem commitOne_WF (s : EState) (L : List Layer) (h : HistoryWF s) :
    HistoryWF (commitOne s L)
    ∧ (commitOne s L).historyIndex + 1 = (commitOne s L).history.length := by
  obtain ⟨h1, h2⟩ := h
  rw [commitOne_eq s L h1 h2]
  refine ⟨⟨?_, ?_⟩, ?_⟩
  · show min (s.historyIndex + 2) 20 - 1
      < (lastChunk (s.history.take (s.historyIndex + 1) ++ [L])).length
    rw [length_lastChunk]
    simp only [List.length_append, List.length_take, List.length_singleton]
    omega
  · show (lastChunk (s.history.take (s.historyIndex + 1) ++ [L])).length ≤ 20
    rw [length_lastChunk]
    omega
  · show min (s.historyIndex + 2) 20 - 1 + 1
      = (lastChunk (s.history.take (s.historyIndex + 1) ++ [L])).length
    rw [length_lastChunk]
    simp only [List.length_append, List.length_take, List.length_singleton]
    omega

/-- Any sequence of commits preserves history well-formedness. -/
theorem commitList_WF (Ls : List (List Layer)) :
    ∀ s : EState, HistoryWF s → HistoryWF (commitList s Ls) := by
  induction Ls with
  | nil => intro s h; exact h
  | cons L Ls ih =>
      intro s h
      have hstep : commitList s (L :: Ls) = commitList (commitOne s L) Ls := by
        simp [commitList, List.foldl_cons]
      rw [hstep]
      exact ih _ (commitOne_WF s L h).1

/-! ## Claim C1 — undo/redo round trip -/

/-- Claim C1: for every initial document state (well-formed history, layers
agreeing with the entry under the cursor, as every reachable state does) and
every sequence of N ≤ 19 history commits, applying `undo()` N times and then
`redo()` N times yields exactly the layer sequence current after the N-th
commit, and applying `undo()` N times alone yields exactly the layer
sequence from before the first commit. -/
theorem undo_redo_roundtrip (s : EState) (Ls : List (List Layer))
    (hIdx : s.historyIndex < s.history.length)
    (hLen : s.history.length ≤ 20)
    (hCur : s.layers = s.history.getD s.historyIndex [])
    (hN : Ls.length ≤ 19) :
    (redoN Ls.length (undoN Ls.length (commitList s Ls))).layers
        = (commitList s Ls).layers
    ∧ (undoN Ls.length (commitList s Ls)).layers = s.layers := by
  cases Ls with
  | nil => exact ⟨rfl, rfl⟩
  | cons L Ls' =>
      simp only [List.length_cons] at hN ⊢
      have hBlen : (s.history.take (s.historyIndex + 1)).length = s.historyIndex + 1 := by
        simp only [List.length_take]
        omega
      have hTlen : (s.history.take (s.historyIndex + 1) ++ (L :: Ls')).length
          = s.historyIndex + 1 + (Ls'.length + 1) := by
        simp only [List.length_append, List.length_cons, hBlen]
      have hTat : ∀ j, j ≤ s.historyIndex →
          (s.history.take (s.historyIndex + 1) ++ (L :: Ls')).getD j []
            = s.history.getD j [] := by
        intro j hj
        rw [List.getD_eq_getElem?_getD, List.getElem?_append_left (by rw [hBlen]; omega),
          List.getElem?_take_of_lt (by omega), ← List.getD_eq_getElem?_getD]
      have hTlast : (s.history.take (s.historyIndex + 1) ++ (L :: Ls')).getD
          (s.historyIndex + 1 + Ls'.length) [] = Ls'.getLastD L := by
        rw [List.getD_eq_getElem?_getD, List.getElem?_append_right (by rw [hBlen]; omega),
          hBlen,
          show s.historyIndex + 1 + Ls'.length - (s.historyIndex + 1) = Ls'.length by omega,
          ← List.getD_eq_getElem?_getD, getD_cons_length]
      set F := commitList s (L :: Ls') with hFdef
      have hFl : F.layers = Ls'.getLastD L := by
        rw [hFdef, commitList_cons_closed s L Ls' hIdx hLen]
      have hFh : F.history
          = lastChunk (s.history.take (s.historyIndex + 1) ++ (L :: Ls')) := by
        rw [hFdef, commitList_cons_closed s L Ls' hIdx hLen]
      have hFi : F.historyIndex = min (s.historyIndex + 2 + Ls'.length) 20 - 1 := by
        rw [hFdef, commitList_cons_closed s L Ls' hIdx hLen]
      have hN' : Ls'.length + 1 ≤ F.historyIndex := by
        rw [hFi]
        omega
      have hcurF : F.layers = F.history.getD F.historyIndex [] := by
        rw [hFl, hFh, hFi, getD_lastChunk, hTlen,
          show s.historyIndex + 1 + (Ls'.length + 1) - 20
              + (min (s.historyIndex + 2 + Ls'.length) 20 - 1)
            = s.historyIndex + 1 + Ls'.length by omega,
          hTlast]
      have hundo : undoN (Ls'.length + 1) F
          = { F with
              layers := F.history.getD (F.historyIndex - (Ls'.length + 1)) [],
              historyIndex := F.historyIndex - (Ls'.length + 1) } :=
        undoN_spec _ F hN' hcurF
      have hUlayers : F.history.getD (F.historyIndex - (Ls'.length + 1)) [] = s.layers := by
        rw [hFh, hFi, getD_lastChunk, hTlen,
          show s.historyIndex + 1 + (Ls'.length + 1) - 20
              + (min (s.historyIndex + 2 + Ls'.length) 20 - 1 - (Ls'.length + 1))
            = s.historyIndex by omega,
          hTat s.historyIndex le_rfl, ← hCur]
      have hU2 : ({ F with
          layers := F.history.getD (F.historyIndex - (Ls'.length + 1)) [],
          historyIndex := F.historyIndex - (Ls'.length + 1) } : EState).historyIndex
            + (Ls'.length + 1)
          < ({ F with
          layers := F.history.getD (F.historyIndex - (Ls'.length + 1)) [],
          historyIndex := F.historyIndex - (Ls'.length + 1) } : EState).history.length := by
        show F.historyIndex - (Ls'.length + 1) + (Ls'.length + 1) < F.history.length
        rw [hFh, length_lastChunk, hTlen, hFi]
        omega
      have hredo := redoN_spec (Ls'.length + 1) _ hU2 rfl
      constructor
      · rw [hundo, hredo]
        show F.history.getD (F.historyIndex - (Ls'.length + 1) + (Ls'.length + 1)) []
            = F.layers
        rw [show F.historyIndex - (Ls'.length + 1) + (Ls'.length + 1) = F.historyIndex by
          omega]
        exact hcurF.symm
      · rw [hundo]
        show F.history.getD (F.historyIndex - (Ls'.length + 1)) [] = s.layers
        exact hUlayers

/-- Witness for C1 at a concrete input: one commit from the initial state,
one undo, one redo. -/
theorem undo_redo_roundtrip_witness :
    ((redoN 1 (undoN 1 (commitList initialState [[defaultLayer]]))).layers
        = (commitList initialState [[defaultLayer]]).layers
    ∧ (undoN 1 (commitList initialState [[defaultLayer]])).layers
        = initialState.layers)
    ∧ initialState.historyIndex < initialState.history.length
    ∧ initialState.history.length ≤ 20 :=
  ⟨undo_redo_roundtrip initialState [[defaultLayer]] (by decide) (by decide)
      (by decide) (by decide),
    by decide, by decide⟩

/-! ## Claim C4 — bounded history, valid cursor, eviction -/

/-- A concrete test layer (used only to instantiate history entries). -/
def testLayer (i : ℕ) : Layer :=
  { defaultLayer with id := toString i, name := "Layer " ++ toString i }

/-- 21 distinct single-layer commits. -/
def commits21 : List (List Layer) :=
  (List.range 21).map (fun i => [testLayer (i + 1)])

set_option maxRecDepth 4000 in
/-- Claim C4: from any well-formed state every commit keeps the stack at
≤ 20 entries with a valid cursor pointing at the newest entry; a commit from
a full stack (cursor at 19) evicts the oldest entry; well-formedness is
preserved by every commit sequence from the initial state; and concretely,
the 21st commit from the initial state evicts the oldest remaining entry
while the cursor still points at the newest. -/
theorem history_bounded (s : EState) (L : List Layer) (Ls : List (List Layer))
    (hWF : HistoryWF s) :
    (HistoryWF (commitOne s L)
      ∧ (commitOne s L).historyIndex + 1 = (commitOne s L).history.length)
    ∧ (s.historyIndex = 19 → (commitOne s L).history = s.history.tail ++ [L])
    ∧ HistoryWF (commitList s Ls)
    ∧ ((commitList initialState commits21).history
        = (List.range 20).map (fun i => [testLayer (i + 2)])
      ∧ (commitList initialState commits21).historyIndex = 19
      ∧ (commitList initialState (commits21.take 20)).history.head? = some [testLayer 1]
      ∧ [testLayer 1] ∉ (commitList initialState commits21).history) := by
  refine ⟨commitOne_WF s L hWF, ?_, commitList_WF Ls s hWF, by decide⟩
  intro h19
  obtain ⟨h1, h2⟩ := hWF
  have hlen20 : s.history.length = 20 := by omega
  rw [commitOne_eq s L h1 h2]
  show lastChunk (s.history.take (s.historyIndex + 1) ++ [L]) = s.history.tail ++ [L]
  rw [h19, show (19 : ℕ) + 1 = 20 from rfl,
    show s.history.take 20 = s.history from by
      rw [← hlen20]
      exact List.take_length s.history]
  unfold lastChunk
  rw [List.length_append, hlen20, List.length_singleton,
    show 20 + 1 - 20 = 1 from rfl,
    List.drop_append_eq_append_drop, hlen20,
    show 1 - 20 = 0 from rfl, List.drop_zero, List.drop_one]

/-- Witness for C4 at a concrete well-formed state. -/
theorem history_bounded_witness :
    ((HistoryWF (commitOne initialState [testLayer 5])
      ∧ (commitOne initialState [testLayer 5]).historyIndex + 1
          = (commitOne initialState [testLayer 5]).history.length)
    ∧ (initialState.historyIndex = 19 →
        (commitOne initialState [testLayer 5]).history
          = initialState.history.tail ++ [[testLayer 5]])
    ∧ HistoryWF (commitList initialState [[testLayer 7]])
    ∧ ((commitList initialState commits21).history
        = (List.range 20).map (fun i => [testLayer (i + 2)])
      ∧ (commitList initialState commits21).historyIndex = 19
      ∧ (commitList initialState (commits21.take 20)).history.head? = some [testLayer 1]
      ∧ [testLayer 1] ∉ (commitList initialState commits21).history))
    ∧ HistoryWF initialState :=
  ⟨history_bounded initialState [testLayer 5] [[testLayer 7]] (by decide), by decide⟩

/-! ## Claim C5 — commit after undo prunes the redo branch -/

/-- A commit onto a top-normal stack with room simply appends. -/
theorem commitOne_no_evict (s : EState) (L : List Layer)
    (hTop : s.historyIndex + 1 = s.history.length)
    (hRoom : s.history.length + 1 ≤ 20) :
    commitOne s L =
      { s with
        layers := L,
        history := s.history ++ [L],
        historyIndex := s.historyIndex + 1 } := by
  have e1 : lastChunk (s.history.take (s.historyIndex + 1) ++ [L]) = s.history ++ [L] := by
    rw [show s.historyIndex + 1 = s.history.length from hTop, List.take_length,
      lastChunk_of_le (by rw [List.length_append, List.length_singleton]; omega)]
  have e2 : min (s.historyIndex + 2) 20 - 1 = s.historyIndex + 1 := by omega
  rw [commitOne_eq s L (by omega) (by omega), e1, e2]

/-- Claim C5: committing after one or more undos discards every history
entry beyond the cursor before pushing.  After `commit L1; commit L2;
undo; commit L3` the history above the original base is exactly `[L1, L3]`
(two entries — the branch `L2` is pruned, not merged), the cursor sits on
the newest entry, and `redo` immediately after that final commit is a
no-op. -/
theorem commit_after_undo_prunes (now : String) (fresh : ℕ) (s : EState)
    (L1 L2 L3 : List Layer)
    (hIdx : s.historyIndex < s.history.length) (hLen : s.history.length ≤ 20)
    (hRoom : s.historyIndex + 3 ≤ 20) :
    (commitOne (undoStep (commitOne (commitOne s L1) L2)) L3).history
        = s.history.take (s.historyIndex + 1) ++ [L1, L3]
    ∧ (commitOne (undoStep (commitOne (commitOne s L1) L2)) L3).historyIndex + 1
        = (commitOne (undoStep (commitOne (commitOne s L1) L2)) L3).history.length
    ∧ reducer now fresh (commitOne (undoStep (commitOne (commitOne s L1) L2)) L3) .REDO
        = commitOne (undoStep (commitOne (commitOne s L1) L2)) L3 := by
  have hBlen : (s.history.take (s.historyIndex + 1)).length = s.historyIndex + 1 := by
    simp only [List.length_take]
    omega
  have hs1 : commitOne s L1 =
      { s with
        layers := L1,
        history := s.history.take (s.historyIndex + 1) ++ [L1],
        historyIndex := s.historyIndex + 1 } := by
    have e1 : lastChunk (s.history.take (s.historyIndex + 1) ++ [L1])
        = s.history.take (s.historyIndex + 1) ++ [L1] :=
      lastChunk_of_le (by rw [List.length_append, hBlen, List.length_singleton]; omega)
    have e2 : min (s.historyIndex + 2) 20 - 1 = s.historyIndex + 1 := by omega
    rw [commitOne_eq s L1 hIdx hLen, e1, e2]
  have hs2 : commitOne (commitOne s L1) L2 =
      { s with
        layers := L2,
        history := (s.history.take (s.historyIndex + 1) ++ [L1]) ++ [L2],
        historyIndex := s.historyIndex + 2 } := by
    rw [hs1, commitOne_no_evict _ L2
      (show s.historyIndex + 1 + 1 = (s.history.take (s.historyIndex + 1) ++ [L1]).length by
        rw [List.length_append, hBlen, List.length_singleton])
      (show (s.history.take (s.historyIndex + 1) ++ [L1]).length + 1 ≤ 20 by
        rw [List.length_append, hBlen, List.length_singleton]; omega)]
  have hu : undoStep (commitOne (commitOne s L1) L2) =
      { s with
        layers := L1,
        history := (s.history.take (s.historyIndex + 1) ++ [L1]) ++ [L2],
        historyIndex := s.historyIndex + 1 } := by
    rw [hs2]
    unfold undoStep
    rw [if_pos (show 0 < s.historyIndex + 2 by omega)]
    have e1 : ((s.history.take (s.historyIndex + 1) ++ [L1]) ++ [L2]).getD
        (s.historyIndex + 2 - 1) [] = L1 := by
      rw [show s.historyIndex + 2 - 1 = s.historyIndex + 1 by omega,
        List.getD_eq_getElem?_getD,
        List.getElem?_append_left
          (by rw [List.length_append, hBlen, List.length_singleton]; omega),
        List.getElem?_append_right (by rw [hBlen]),
        hBlen, show s.historyIndex + 1 - (s.historyIndex + 1) = 0 by omega]
      rfl
    show ({ s with
      layers := ((s.history.take (s.historyIndex + 1) ++ [L1]) ++ [L2]).getD
        (s.historyIndex + 2 - 1) [],
      history := (s.history.take (s.historyIndex + 1) ++ [L1]) ++ [L2],
      historyIndex := s.historyIndex + 2 - 1 } : EState) = _
    rw [e1, show s.historyIndex + 2 - 1 = s.historyIndex + 1 by omega]
  have hF : commitOne (undoStep (commitOne (commitOne s L1) L2)) L3 =
      { s with
        layers := L3,
        history := (s.history.take (s.historyIndex + 1) ++ [L1]) ++ [L3],
        historyIndex := s.historyIndex + 2 } := by
    rw [hu]
    rw [commitOne_eq _ L3
      (show s.historyIndex + 1
          < ((s.history.take (s.historyIndex + 1) ++ [L1]) ++ [L2]).length by
        rw [List.length_append, List.length_append, hBlen, List.length_singleton,
          List.length_singleton]
        omega)
      (show ((s.history.take (s.historyIndex + 1) ++ [L1]) ++ [L2]).length ≤ 20 by
        rw [List.length_append, List.length_append, hBlen, List.length_singleton,
          List.length_singleton]
        omega)]
    have e0 : ((s.history.take (s.historyIndex + 1) ++ [L1]) ++ [L2]).take
        (s.historyIndex + 1 + 1) = s.history.take (s.historyIndex + 1) ++ [L1] :=
      List.take_left' (by rw [List.length_append, hBlen, List.length_singleton])
    have e1 : lastChunk ((s.history.take (s.historyIndex + 1) ++ [L1]) ++ [L3])
        = (s.history.take (s.historyIndex + 1) ++ [L1]) ++ [L3] :=
      lastChunk_of_le (by
        rw [List.length_append, List.length_append, hBlen, List.length_singleton,
          List.length_singleton]
        omega)
    have e2 : min (s.historyIndex + 1 + 2) 20 - 1 = s.historyIndex + 2 := by omega
    show ({ s with
      layers := L3,
      history := lastChunk (((s.history.take (s.historyIndex + 1) ++ [L1]) ++ [L2]).take
        (s.historyIndex + 1 + 1) ++ [L3]),
      historyIndex := min (s.historyIndex + 1 + 2) 20 - 1 } : EState) = _
    rw [e0, e1, e2]
  refine ⟨?_, ?_, ?_⟩
  · rw [hF]
    show (s.history.take (s.historyIndex + 1) ++ [L1]) ++ [L3]
        = s.history.take (s.historyIndex + 1) ++ [L1, L3]
    rw [List.append_assoc]
    rfl
  · rw [hF]
    show s.historyIndex + 2 + 1
        = ((s.history.take (s.historyIndex + 1) ++ [L1]) ++ [L3]).length
    rw [List.length_append, List.length_append, hBlen, List.length_singleton,
      List.length_singleton]
  · rw [hF]
    have hredo_eq : reducer now fresh
        ({ s with
          layers := L3,
          history := (s.history.take (s.historyIndex + 1) ++ [L1]) ++ [L3],
          historyIndex := s.historyIndex + 2 } : EState) .REDO
        = redoStep
        { s with
          layers := L3,
          history := (s.history.take (s.historyIndex + 1) ++ [L1]) ++ [L3],
          historyIndex := s.historyIndex + 2 } := rfl
    rw [hredo_eq]
    unfold redoStep
    rw [if_neg (show ¬ (s.historyIndex + 2 + 1
        < ((s.history.take (s.historyIndex + 1) ++ [L1]) ++ [L3]).length) by
      rw [List.length_append, List.length_append, hBlen, List.length_singleton,
        List.length_singleton]
      omega)]

/-- Witness for C5 at the initial state with three concrete commits. -/
theorem commit_after_undo_prunes_witness :
    ((commitOne (undoStep (commitOne (commitOne initialState [testLayer 1])
        [testLayer 2])) [testLayer 3]).history
      = initialState.history.take (initialState.historyIndex + 1)
          ++ [[testLayer 1], [testLayer 3]]
    ∧ (commitOne (undoStep (commitOne (commitOne initialState [testLayer 1])
        [testLayer 2])) [testLayer 3]).historyIndex + 1
      = (commitOne (undoStep (commitOne (commitOne initialState [testLayer 1])
        [testLayer 2])) [testLayer 3]).history.length
    ∧ reducer "n" 0 (commitOne (undoStep (commitOne (commitOne initialState
        [testLayer 1]) [testLayer 2])) [testLayer 3]) .REDO
      = commitOne (undoStep (commitOne (commitOne initialState [testLayer 1])
        [testLayer 2])) [testLayer 3])
    ∧ initialState.historyIndex + 3 ≤ 20 :=
  ⟨commit_after_undo_prunes "n" 0 initialState [testLayer 1] [testLayer 2]
      [testLayer 3] (by decide) (by decide) (by decide),
    by decide⟩

/-! ## Claims C2 and C3 — active-layer fallback and the active-layer invariant -/

/-- Concrete fixtures: two layers, the lower one (`index 1`) active. -/
def layerA : Layer := { defaultLayer with id := "A", name := "A" }

def layerB : Layer := { defaultLayer with id := "B", name := "B" }

/-- Document with layer sequence `[A, B]` and active layer `B`. -/
def stateAB : EState :=
  { initialState with
    layers := [layerA, layerB],
    activeLayerId := some "B",
    history := [[layerA, layerB]],
    historyIndex := 0 }

/-- Claim C2 (code evaluated at the failing input): removing the active
layer `B` (which sits at index 1 of `[A, B]`) leaves the sequence `[A]`,
but `REMOVE_LAYER` computes the fallback from the PRE-removal sequence
(`state.layers[1]?.id`), so the active id becomes `"B"` — the id of the
layer that was just removed — and not `"A"`, the new top layer demanded by
the claim. -/
theorem remove_layer_active_fallback_bug :
    (reducer "n" 0 stateAB (.REMOVE_LAYER "B")).layers.map Layer.id = ["A"]
    ∧ (reducer "n" 0 stateAB (.REMOVE_LAYER "B")).activeLayerId = some "B"
    ∧ (reducer "n" 0 stateAB (.REMOVE_LAYER "B")).activeLayerId ≠ some "A" := by
  decide

/-- ActiveInv unfolded to its universally quantified form. -/
theorem activeInv_iff (s : EState) :
    ActiveInv s ↔ ∀ a, s.activeLayerId = some a → a ∈ s.layers.map Layer.id := by
  unfold ActiveInv
  cases h : s.activeLayerId with
  | none =>
      show True ↔ _
      constructor
      · intro _ b hb
        exact Option.noConfusion hb
      · intro _
        trivial
  | some a =>
      show a ∈ s.layers.map Layer.id ↔ _
      constructor
      · intro hm b hb
        have hab := Option.some.inj hb
        rw [← hab]
        exact hm
      · intro hall
        exact hall a rfl

/-- Counterexample to claim C3 as stated: `REMOVE_LAYER` on a state
satisfying the active-layer invariant can break it (the active id ends up
referencing the removed layer). -/
theorem active_invariant_broken_by_remove :
    ActiveInv stateAB
    ∧ ¬ ActiveInv (reducer "n" 0 stateAB (.REMOVE_LAYER "B")) := by
  decide

/-- Membership is invariant under the two-`set` swap. -/
theorem mem_set_set_swap {α : Type} (xs : List α) (d : α) (i j : ℕ)
    (hi : i < xs.length) (hj : j < xs.length) (b : α) :
    b ∈ (xs.set i (xs.getD j d)).set j (xs.getD i d) ↔ b ∈ xs := by
  have hlen1 : (xs.set i (xs.getD j d)).length = xs.length := by
    rw [List.length_set]
  have hvi : xs[i]? = some (xs.getD i d) := by
    rw [List.getD_eq_getElem?_getD, List.getElem?_eq_getElem hi]
    rfl
  have hvj : xs[j]? = some (xs.getD j d) := by
    rw [List.getD_eq_getElem?_getD, List.getElem?_eq_getElem hj]
    rfl
  constructor
  · intro hb
    rw [List.mem_iff_getElem?] at hb ⊢
    obtain ⟨n, hn⟩ := hb
    rw [List.getElem?_set] at hn
    by_cases hnj : j = n
    · rw [if_pos hnj, if_pos (by rw [hlen1]; omega)] at hn
      exact ⟨i, by rw [hvi, hn]⟩
    · rw [if_neg hnj, List.getElem?_set] at hn
      by_cases hni : i = n
      · rw [if_pos hni, if_pos (by omega)] at hn
        exact ⟨j, by rw [hvj, hn]⟩
      · rw [if_neg hni] at hn
        exact ⟨n, hn⟩
  · intro hb
    rw [List.mem_iff_getElem?] at hb ⊢
    obtain ⟨n, hn⟩ := hb
    by_cases hni : n = i
    · refine ⟨j, ?_⟩
      rw [List.getElem?_set, if_pos rfl, if_pos (by rw [hlen1]; omega)]
      rw [hni] at hn
      rw [hvi] at hn
      rw [hn]
    · by_cases hnj : n = j
      · have hij : i ≠ j := by
          intro he
          exact hni (by omega)
        refine ⟨i, ?_⟩
        rw [List.getElem?_set, if_neg (by omega), List.getElem?_set, if_pos rfl,
          if_pos hi]
        rw [hnj] at hn
        rw [hvj] at hn
        rw [hn]
      · refine ⟨n, ?_⟩
        rw [List.getElem?_set, if_neg (by omega), List.getElem?_set, if_neg (by omega)]
        exact hn
/-- Mapping ids commutes with the reorder swap, up to membership. -/
theorem mem_map_swapLayers (ls : List Layer) (i j : ℕ)
    (hi : i < ls.length) (hj : j < ls.length) (a : String) :
    a ∈ (swapLayers ls i j).map Layer.id ↔ a ∈ ls.map Layer.id := by
  unfold swapLayers
  rw [List.map_set, List.map_set]
  have hdj : (ls.getD j defaultLayer).id = (ls.map Layer.id).getD j defaultLayer.id := by
    rw [List.getD_eq_getElem?_getD, List.getD_eq_getElem?_getD, List.getElem?_map,
      List.getElem?_eq_getElem hj]
    rfl
  have hdi : (ls.getD i defaultLayer).id = (ls.map Layer.id).getD i defaultLayer.id := by
    rw [List.getD_eq_getElem?_getD, List.getD_eq_getElem?_getD, List.getElem?_map,
      List.getElem?_eq_getElem hi]
    rfl
  rw [hdj, hdi]
  exact mem_set_set_swap (ls.map Layer.id) defaultLayer.id i j
    (by rw [List.length_map]; exact hi) (by rw [List.length_map]; exact hj) a

/-- Mapping with an id-preserving function leaves the id list unchanged. -/
theorem map_id_of_preserve (f : Layer → Layer) (hf : ∀ l, (f l).id = l.id)
    (ls : List Layer) : (ls.map f).map Layer.id = ls.map Layer.id := by
  rw [List.map_map]
  exact List.map_congr_left (fun l _ => hf l)

/-- Side conditions under which an action preserves the active-layer
invariant (the amendment the counterexample forces): `REMOVE_LAYER` must not
leave the pre-removal index-1 layer's id — the fallback the code actually
installs — pointing at the removed layer; `SELECT_LAYER` must target a
present id; `UNDO`/`REDO` need the active id present in the installed
snapshot.  Every other operation needs no condition. -/
def safeAction (s : EState) (a : EAction) : Prop :=
  match a with
  | .REMOVE_LAYER id =>
      s.activeLayerId = some id →
        match s.layers.get? 1 with
        | none => True
        | some l1 => l1.id ≠ id ∨ l1.id = ""
  | .SELECT_LAYER id => id ∈ s.layers.map Layer.id
  | .UNDO => 0 < s.historyIndex →
      ∀ id, s.activeLayerId = some id →
        id ∈ (s.history.getD (s.historyIndex - 1) []).map Layer.id
  | .REDO => s.historyIndex + 1 < s.history.length →
      ∀ id, s.activeLayerId = some id →
        id ∈ (s.history.getD (s.historyIndex + 1) []).map Layer.id
  | _ => True

/-- Claim C3 (amended): every document-mutating operation preserves the
invariant "the active layer id, when set, references a present layer" under
the side condition `safeAction` — which is trivial for add, duplicate,
update, reorder, canvas-size, crop, filter and effect updates, and
constrains exactly the operations the counterexample shows can break the
invariant (remove of a non-top active layer, select of an absent id, and
undo/redo into a snapshot that lacks the active id). -/
theorem active_invariant_preserved (now : String) (fresh : ℕ) (s : EState)
    (a : EAction) (hInv : ActiveInv s) (hSafe : safeAction s a) :
    ActiveInv (reducer now fresh s a) := by
  cases a with
  | SET_TOOL t => exact hInv
  | SET_ZOOM z => exact hInv
  | SET_PAN p => exact hInv
  | SET_BRUSH_COLOR c => exact hInv
  | SET_BRUSH_SIZE b => exact hInv
  | SET_SELECTION_PATH p => exact hInv
  | PUSH_HISTORY => exact hInv
  | SET_CANVAS_SIZE sz => exact hInv
  | SELECT_LAYER id =>
      rw [activeInv_iff]
      intro a ha
      have ha' : some id = some a := ha
      have hs : id ∈ s.layers.map Layer.id := hSafe
      show a ∈ s.layers.map Layer.id
      rw [← Option.some.inj ha']
      exact hs
  | UNDO =>
      have hred : reducer now fresh s .UNDO = undoStep s := rfl
      rw [hred]
      unfold undoStep
      by_cases hpos : 0 < s.historyIndex
      · rw [if_pos hpos, activeInv_iff]
        intro a ha
        have ha' : s.activeLayerId = some a := ha
        show a ∈ (s.history.getD (s.historyIndex - 1) []).map Layer.id
        exact hSafe hpos a ha'
      · rw [if_neg hpos]
        exact hInv
  | REDO =>
      have hred : reducer now fresh s .REDO = redoStep s := rfl
      rw [hred]
      unfold redoStep
      by_cases hlt : s.historyIndex + 1 < s.history.length
      · rw [if_pos hlt, activeInv_iff]
        intro a ha
        have ha' : s.activeLayerId = some a := ha
        show a ∈ (s.history.getD (s.historyIndex + 1) []).map Layer.id
        exact hSafe hlt a ha'
      · rw [if_neg hlt]
        exact hInv
  | ADD_LAYER l =>
      rw [activeInv_iff]
      intro a ha
      have ha' : some l.id = some a := ha
      show a ∈ (l :: s.layers).map Layer.id
      rw [List.map_cons, ← Option.some.inj ha']
      exact List.mem_cons_self _ _
  | REMOVE_LAYER id =>
      rw [activeInv_iff]
      intro a ha
      have ha' : (if s.activeLayerId = some id then
          jsOrNull ((s.layers.get? 1).map Layer.id)
        else s.activeLayerId) = some a := ha
      show a ∈ (s.layers.filter (fun l => l.id != id)).map Layer.id
      by_cases hc : s.activeLayerId = some id
      · rw [if_pos hc] at ha'
        have hs2 := hSafe hc
        cases h1 : s.layers.get? 1 with
        | none =>
            rw [h1] at ha'
            exact Option.noConfusion ha'
        | some l1 =>
            rw [h1] at ha'
            have hs3 : l1.id ≠ id ∨ l1.id = "" := by
              rw [h1] at hs2
              exact hs2
            rw [show (some l1 : Option Layer).map Layer.id = some l1.id from rfl,
              show jsOrNull (some l1.id) = if l1.id = "" then none else some l1.id
                from rfl] at ha'
            by_cases he : l1.id = ""
            · rw [if_pos he] at ha'
              exact Option.noConfusion ha'
            · rw [if_neg he] at ha'
              have hal : a = l1.id := (Option.some.inj ha').symm
              have hne : l1.id ≠ id := hs3.resolve_right he
              have hl1 : l1 ∈ s.layers := List.get?_mem h1
              rw [List.mem_map]
              refine ⟨l1, List.mem_filter.2 ⟨hl1, ?_⟩, hal.symm⟩
              rw [bne_iff_ne]
              exact hne
      · rw [if_neg hc] at ha'
        have hmem := (activeInv_iff s).1 hInv a ha'
        have hne : a ≠ id := fun he => hc (by rw [← he]; exact ha')
        rw [List.mem_map] at hmem ⊢
        obtain ⟨l, hl, hla⟩ := hmem
        refine ⟨l, List.mem_filter.2 ⟨hl, ?_⟩, hla⟩
        rw [bne_iff_ne, hla]
        exact hne
  | DUPLICATE_LAYER id =>
      simp only [reducer]
      cases hf : s.layers.find? (fun l => l.id == id) with
      | none => exact hInv
      | some l =>
          rw [activeInv_iff]
          intro a ha
          have ha' : some now = some a := ha
          show a ∈ (dupLayer now fresh l :: s.layers).map Layer.id
          rw [List.map_cons, ← Option.some.inj ha']
          exact List.mem_cons_self _ _
  | UPDATE_LAYER id changes =>
      rw [activeInv_iff]
      intro a ha
      have ha' : s.activeLayerId = some a := ha
      show a ∈ ((s.layers.map
        (fun l => if l.id == id then applyChanges l changes else l)).map Layer.id)
      rw [map_id_of_preserve _ (fun l => by
        by_cases h : (l.id == id) = true
        · show (if l.id == id then applyChanges l changes else l).id = l.id
          rw [if_pos h]
          rfl
        · show (if l.id == id then applyChanges l changes else l).id = l.id
          rw [if_neg h])]
      exact (activeInv_iff s).1 hInv a ha'
  | REORDER_LAYER id up =>
      simp only [reducer]
      cases hf : s.layers.findIdx? (fun l => l.id == id) with
      | none => exact hInv
      | some ci =>
          have hci : ci < s.layers.length := by
            rw [List.findIdx?_eq_some_iff_findIdx_eq] at hf
            exact hf.1
          by_cases hcond : (0 ≤ (if up then (ci : ℤ) - 1 else (ci : ℤ) + 1)
              ∧ (if up then (ci : ℤ) - 1 else (ci : ℤ) + 1) < (s.layers.length : ℤ))
          · show ActiveInv (if (0 ≤ (if up then (ci : ℤ) - 1 else (ci : ℤ) + 1)
                ∧ (if up then (ci : ℤ) - 1 else (ci : ℤ) + 1) < (s.layers.length : ℤ)) then
                pushHistory s
                  { s with layers := (swapLayers s.layers ci ((if up then (ci : ℤ) - 1 else (ci : ℤ) + 1).toNat)) }
              else pushHistory s s)
            rw [if_pos hcond, activeInv_iff]
            intro a ha
            have ha' : s.activeLayerId = some a := ha
            have hsj : (if up then (ci : ℤ) - 1 else (ci : ℤ) + 1).toNat
                < s.layers.length := by omega
            show a ∈ (swapLayers s.layers ci
              ((if up then (ci : ℤ) - 1 else (ci : ℤ) + 1).toNat)).map Layer.id
            rw [mem_map_swapLayers s.layers ci _ hci hsj]
            exact (activeInv_iff s).1 hInv a ha'
          · show ActiveInv (if (0 ≤ (if up then (ci : ℤ) - 1 else (ci : ℤ) + 1)
                ∧ (if up then (ci : ℤ) - 1 else (ci : ℤ) + 1) < (s.layers.length : ℤ)) then
                pushHistory s
                  { s with layers := (swapLayers s.layers ci ((if up then (ci : ℤ) - 1 else (ci : ℤ) + 1).toNat)) }
              else pushHistory s s)
            rw [if_neg hcond]
            exact hInv
  | CROP_CANVAS cx cy cw ch =>
      rw [activeInv_iff]
      intro a ha
      have ha' : s.activeLayerId = some a := ha
      show a ∈ ((s.layers.map (fun l => { l with x := l.x - cx, y := l.y - cy })).map
        Layer.id)
      rw [map_id_of_preserve (fun l => { l with x := l.x - cx, y := l.y - cy })
        (fun l => rfl)]
      exact (activeInv_iff s).1 hInv a ha'
  | SET_LAYER_FILTER layerId key value =>
      rw [activeInv_iff]
      intro a ha
      have ha' : s.activeLayerId = some a := ha
      show a ∈ ((s.layers.map (fun l => if l.id == layerId then
        { l with filters := setFilter l.filters key value } else l)).map Layer.id)
      rw [map_id_of_preserve _ (fun l => by
        by_cases h : (l.id == layerId) = true
        · show (if l.id == layerId then
              { l with filters := setFilter l.filters key value } else l).id = l.id
          rw [if_pos h]
        · show (if l.id == layerId then
              { l with filters := setFilter l.filters key value } else l).id = l.id
          rw [if_neg h])]
      exact (activeInv_iff s).1 hInv a ha'
  | UPDATE_LAYER_EFFECT layerId group =>
      rw [activeInv_iff]
      intro a ha
      have ha' : s.activeLayerId = some a := ha
      show a ∈ ((s.layers.map (fun l => if l.id == layerId then
        { l with effects := setEffectGroup l.effects group } else l)).map Layer.id)
      rw [map_id_of_preserve _ (fun l => by
        by_cases h : (l.id == layerId) = true
        · show (if l.id == layerId then
              { l with effects := setEffectGroup l.effects group } else l).id = l.id
          rw [if_pos h]
        · show (if l.id == layerId then
              { l with effects := setEffectGroup l.effects group } else l).id = l.id
          rw [if_neg h])]
      exact (activeInv_iff s).1 hInv a ha'

/-- Witness for the amended C3 at a concrete state and action. -/
theorem active_invariant_preserved_witness :
    ActiveInv (reducer "n" 0 stateAB (.SELECT_LAYER "A"))
    ∧ ActiveInv stateAB :=
  ⟨active_invariant_preserved "n" 0 stateAB (.SELECT_LAYER "A") (by decide)
      (show "A" ∈ stateAB.layers.map Layer.id by decide),
    by decide⟩

/-! ## Claims C6 and C10 — raster buffers, duplication, shallow history -/

/-- A raster buffer (`HTMLCanvasElement` content): pixel dimensions and flat
RGBA byte data. -/
structure RasterBuffer where
  width : ℕ
  height : ℕ
  data : List ℕ
deriving DecidableEq

/-- The heap of live canvases, addressed by buffer id. -/
def Store : Type := ℕ → RasterBuffer

/-- Setting `canvas.width`/`canvas.height` coerces the numeric value; the
dimensions reaching `createOffscreenLayer` are non-negative integers. -/
def natOfQ (q : ℚ) : ℕ := q.floor.toNat

/-- `createOffscreenLayer(width, height)` followed by
`ctx.drawImage(src, 0, 0)` (the clone built by `DUPLICATE_LAYER`,
`part_000` lines 113-115): a fresh transparent canvas of the layer's
dimensions with the source buffer blitted at natural size into the top-left
corner; pixels outside the source stay transparent (zero bytes). -/
def drawToNew (w h : ℕ) (src : RasterBuffer) : RasterBuffer :=
  { width := w, height := h,
    data := (List.range (w * h)).flatMap (fun p =>
      let px := p % w
      let py := p / w
      if px < src.width ∧ py < src.height then
        [src.data.getD (4 * (py * src.width + px)) 0,
         src.data.getD (4 * (py * src.width + px) + 1) 0,
         src.data.getD (4 * (py * src.width + px) + 2) 0,
         src.data.getD (4 * (py * src.width + px) + 3) 0]
      else [0, 0, 0, 0]) }

/-- `DUPLICATE_LAYER` together with its effect on the canvas heap: when the
source layer owns a buffer, a fresh buffer id is bound to the clone; the
document part is exactly the reducer's. -/
def duplicateLayerStep (now : String) (fresh : ℕ) (σ : Store) (s : EState)
    (pid : String) : Store × EState :=
  ((match s.layers.find? (fun l => l.id == pid) with
    | some l =>
        match l.imageElement with
        | some b =>
            Function.update σ fresh (drawToNew (natOfQ l.width) (natOfQ l.height) (σ b))
        | none => σ
    | none => σ),
   reducer now fresh s (.DUPLICATE_LAYER pid))

/-- Document with one layer whose id is the clock string `"100"`. -/
def state100 : EState :=
  { initialState with
    layers := [{ defaultLayer with id := "100" }],
    activeLayerId := some "100",
    history := [[{ defaultLayer with id := "100" }]],
    historyIndex := 0 }

/-- Counterexample to claim C6 as stated: the duplicate's id is
`Date.now().toString()`, so duplicating a layer whose id was minted in the
same clock millisecond produces a duplicate whose id equals an existing
layer id — it is not "distinct from every existing layer id". -/
theorem duplicate_id_collision :
    (reducer "100" 1 state100 (.DUPLICATE_LAYER "100")).layers.map Layer.id
        = ["100", "100"]
    ∧ "100" ∈ state100.layers.map Layer.id := by
  decide

/-- Claim C6 (amended): provided the clock string `now` differs from every
existing layer id and the clone canvas `fresh` is not referenced by any
layer, duplicate-layer inserts at the top a new layer with id `now`
(distinct from all existing ids), position offset by exactly (+20, +20),
structural copies of filters and effects, and — when the original owns a
buffer — an independent deep copy: the clone lives under the fresh id,
whose content is the blit of the original, and updating either buffer in
the store leaves the other byte-for-byte unchanged; the duplicate becomes
the active layer. -/
theorem duplicate_layer_spec (now : String) (fresh : ℕ) (σ : Store) (s : EState)
    (pid : String) (l : Layer)
    (hfind : s.layers.find? (fun l' => l'.id == pid) = some l)
    (hnow : now ∉ s.layers.map Layer.id)
    (hfresh : ∀ l' ∈ s.layers, l'.imageElement ≠ some fresh) :
    (duplicateLayerStep now fresh σ s pid).2.layers = dupLayer now fresh l :: s.layers
    ∧ (dupLayer now fresh l).id = now
    ∧ (dupLayer now fresh l).id ∉ s.layers.map Layer.id
    ∧ (dupLayer now fresh l).x = l.x + 20
    ∧ (dupLayer now fresh l).y = l.y + 20
    ∧ (dupLayer now fresh l).filters = l.filters
    ∧ (dupLayer now fresh l).effects = l.effects
    ∧ (duplicateLayerStep now fresh σ s pid).2.activeLayerId = some now
    ∧ (∀ b, l.imageElement = some b →
        (dupLayer now fresh l).imageElement = some fresh
        ∧ fresh ≠ b
        ∧ (duplicateLayerStep now fresh σ s pid).1 fresh
            = drawToNew (natOfQ l.width) (natOfQ l.height) (σ b)
        ∧ (duplicateLayerStep now fresh σ s pid).1 b = σ b
        ∧ (∀ f : RasterBuffer,
            Function.update ((duplicateLayerStep now fresh σ s pid).1) fresh f b
              = (duplicateLayerStep now fresh σ s pid).1 b
            ∧ Function.update ((duplicateLayerStep now fresh σ s pid).1) b f fresh
              = (duplicateLayerStep now fresh σ s pid).1 fresh)) := by
  have hmem : l ∈ s.layers := List.mem_of_find?_eq_some hfind
  have hstep : reducer now fresh s (.DUPLICATE_LAYER pid)
      = pushHistory s
        { s with layers := dupLayer now fresh l :: s.layers, activeLayerId := some now } := by
    simp only [reducer]
    rw [hfind]
  refine ⟨?_, rfl, hnow, rfl, rfl, rfl, rfl, ?_, ?_⟩
  · show (duplicateLayerStep now fresh σ s pid).2.layers = _
    rw [show (duplicateLayerStep now fresh σ s pid).2
        = reducer now fresh s (.DUPLICATE_LAYER pid) from rfl, hstep]
    rfl
  · rw [show (duplicateLayerStep now fresh σ s pid).2
        = reducer now fresh s (.DUPLICATE_LAYER pid) from rfl, hstep]
    rfl
  · intro b hb
    have hne : fresh ≠ b := by
      intro he
      exact hfresh l hmem (by rw [hb, he])
    have hσ : (duplicateLayerStep now fresh σ s pid).1
        = Function.update σ fresh (drawToNew (natOfQ l.width) (natOfQ l.height) (σ b)) := by
      show (match s.layers.find? (fun l' => l'.id == pid) with
        | some l =>
            match l.imageElement with
            | some b =>
                Function.update σ fresh
                  (drawToNew (natOfQ l.width) (natOfQ l.height) (σ b))
            | none => σ
        | none => σ) = _
      rw [hfind]
      show (match l.imageElement with
        | some b =>
            Function.update σ fresh
              (drawToNew (natOfQ l.width) (natOfQ l.height) (σ b))
        | none => σ) = _
      rw [hb]
    refine ⟨by rw [show (dupLayer now fresh l).imageElement
        = l.imageElement.map (fun _ => fresh) from rfl, hb]; rfl,
      hne, ?_, ?_, ?_⟩
    · rw [hσ]
      exact Function.update_same fresh _ σ
    · rw [hσ, Function.update_noteq (fun he => hne he.symm)]
    · intro f
      constructor
      · rw [Function.update_noteq (show b ≠ fresh from fun he => hne he.symm)]
      · rw [Function.update_noteq hne]

/-- Claim C10: history entries are shallow snapshots.  A brush/eraser stroke
mutates the layer's canvas in place (`σ` updated at the buffer id `b`) and
dispatches `UPDATE_LAYER` with empty changes followed by `PUSH_HISTORY` at
gesture end; the commit stores the live layer array itself, undo restores
the layer-list structure — which still references the same buffer `b` — and
the buffer's content under the store remains the mutated `newBuf`, not the
pre-stroke content. -/
theorem history_shallow_snapshots (now : String) (fresh : ℕ) (s : EState) (σ : Store)
    (l : Layer) (b : ℕ) (newBuf : RasterBuffer)
    (hmem : l ∈ s.layers) (hbuf : l.imageElement = some b)
    (hIdx : s.historyIndex < s.history.length) (hLen : s.history.length ≤ 20)
    (hmut : newBuf ≠ σ b) :
    (reducer now fresh s (.UPDATE_LAYER l.id emptyChanges)).layers = s.layers
    ∧ (reducer now fresh (reducer now fresh s (.UPDATE_LAYER l.id emptyChanges))
        .PUSH_HISTORY).history.getD
        (reducer now fresh (reducer now fresh s (.UPDATE_LAYER l.id emptyChanges))
          .PUSH_HISTORY).historyIndex [] = s.layers
    ∧ (reducer now fresh (reducer now fresh (reducer now fresh s
        (.UPDATE_LAYER l.id emptyChanges)) .PUSH_HISTORY) .UNDO).layers = s.layers
    ∧ l ∈ (reducer now fresh (reducer now fresh (reducer now fresh s
        (.UPDATE_LAYER l.id emptyChanges)) .PUSH_HISTORY) .UNDO).layers
    ∧ l.imageElement = some b
    ∧ Function.update σ b newBuf b = newBuf
    ∧ Function.update σ b newBuf b ≠ σ b := by
  have hmapid : s.layers.map
      (fun l' => if l'.id == l.id then applyChanges l' emptyChanges else l')
      = s.layers := by
    have h : ∀ l' ∈ s.layers,
        (if l'.id == l.id then applyChanges l' emptyChanges else l') = l' := by
      intro l' _
      by_cases hc : (l'.id == l.id) = true
      · rw [if_pos hc]
        rfl
      · rw [if_neg hc]
    rw [List.map_congr_left h, List.map_id']
  have h1 : reducer now fresh s (.UPDATE_LAYER l.id emptyChanges)
      = commitOne s s.layers := by
    show pushHistory s
      { s with layers := (s.layers.map
          (fun l' => if l'.id == l.id then applyChanges l' emptyChanges else l')) }
      = commitOne s s.layers
    rw [hmapid]
    rfl
  have h2 : reducer now fresh (commitOne s s.layers) .PUSH_HISTORY
      = commitList s [s.layers, s.layers] := rfl
  have hBlen : (s.history.take (s.historyIndex + 1)).length = s.historyIndex + 1 := by
    simp only [List.length_take]
    omega
  have hTlen : (s.history.take (s.historyIndex + 1)
      ++ (s.layers :: [s.layers])).length = s.historyIndex + 3 := by
    simp only [List.length_append, List.length_cons, List.length_nil, hBlen]
  have hTat1 : (s.history.take (s.historyIndex + 1)
      ++ (s.layers :: [s.layers])).getD (s.historyIndex + 1) [] = s.layers := by
    rw [List.getD_eq_getElem?_getD, List.getElem?_append_right (by rw [hBlen]),
      hBlen, show s.historyIndex + 1 - (s.historyIndex + 1) = 0 by omega]
    rfl
  have hTat2 : (s.history.take (s.historyIndex + 1)
      ++ (s.layers :: [s.layers])).getD (s.historyIndex + 2) [] = s.layers := by
    rw [List.getD_eq_getElem?_getD, List.getElem?_append_right (by rw [hBlen]; omega),
      hBlen, show s.historyIndex + 2 - (s.historyIndex + 1) = 1 by omega]
    rfl
  have hcc := commitList_cons_closed s s.layers [s.layers] hIdx hLen
  have hSl : (commitList s [s.layers, s.layers]).layers = s.layers := by
    rw [hcc]
    rfl
  have hSh : (commitList s [s.layers, s.layers]).history
      = lastChunk (s.history.take (s.historyIndex + 1) ++ (s.layers :: [s.layers])) := by
    rw [hcc]
  have hSi : (commitList s [s.layers, s.layers]).historyIndex
      = min (s.historyIndex + 3) 20 - 1 := by
    rw [hcc]
    rfl
  have hScur : (commitList s [s.layers, s.layers]).layers
      = (commitList s [s.layers, s.layers]).history.getD
          (commitList s [s.layers, s.layers]).historyIndex [] := by
    rw [hSl, hSh, hSi, getD_lastChunk, hTlen,
      show s.historyIndex + 3 - 20 + (min (s.historyIndex + 3) 20 - 1)
        = s.historyIndex + 2 by omega, hTat2]
  have hnle : 1 ≤ (commitList s [s.layers, s.layers]).historyIndex := by
    rw [hSi]
    omega
  have hundo := undoN_spec 1 (commitList s [s.layers, s.layers]) hnle hScur
  have hu : reducer now fresh (commitList s [s.layers, s.layers]) .UNDO
      = undoN 1 (commitList s [s.layers, s.layers]) := rfl
  have hUlayers : (reducer now fresh (commitList s [s.layers, s.layers]) .UNDO).layers
      = s.layers := by
    rw [hu, hundo]
    show (commitList s [s.layers, s.layers]).history.getD
      ((commitList s [s.layers, s.layers]).historyIndex - 1) [] = s.layers
    rw [hSh, hSi, getD_lastChunk, hTlen,
      show s.historyIndex + 3 - 20 + (min (s.historyIndex + 3) 20 - 1 - 1)
        = s.historyIndex + 1 by omega, hTat1]
  refine ⟨?_, ?_, ?_, ?_, hbuf, Function.update_same b newBuf σ, ?_⟩
  · rw [h1]
    rfl
  · rw [h1, h2, hSh, hSi, getD_lastChunk, hTlen,
      show s.historyIndex + 3 - 20 + (min (s.historyIndex + 3) 20 - 1)
        = s.historyIndex + 2 by omega, hTat2]
  · rw [h1, h2]
    exact hUlayers
  · rw [h1, h2, hUlayers]
    exact hmem
  · rw [Function.update_same b newBuf σ]
    exact hmut

/-- Concrete fixture: one image-like layer owning buffer 0. -/
def layerBuf : Layer := { defaultLayer with id := "K", imageElement := some 0 }

/-- Document holding just `layerBuf`. -/
def stateBuf : EState :=
  { initialState with
    layers := [layerBuf],
    activeLayerId := some "K",
    history := [[layerBuf]],
    historyIndex := 0 }

/-- A concrete buffer store. -/
def storeZero : Store := fun _ => { width := 1, height := 1, data := [1, 2, 3, 4] }

/-- Witness for the amended C6 at a concrete duplicate. -/
theorem duplicate_layer_spec_witness :
    ((duplicateLayerStep "Z" 5 storeZero stateBuf "K").2.layers
        = dupLayer "Z" 5 layerBuf :: stateBuf.layers
    ∧ (dupLayer "Z" 5 layerBuf).id = "Z"
    ∧ (dupLayer "Z" 5 layerBuf).id ∉ stateBuf.layers.map Layer.id
    ∧ (dupLayer "Z" 5 layerBuf).x = layerBuf.x + 20
    ∧ (dupLayer "Z" 5 layerBuf).y = layerBuf.y + 20
    ∧ (dupLayer "Z" 5 layerBuf).filters = layerBuf.filters
    ∧ (dupLayer "Z" 5 layerBuf).effects = layerBuf.effects
    ∧ (duplicateLayerStep "Z" 5 storeZero stateBuf "K").2.activeLayerId = some "Z"
    ∧ (∀ b, layerBuf.imageElement = some b →
        (dupLayer "Z" 5 layerBuf).imageElement = some 5
        ∧ 5 ≠ b
        ∧ (duplicateLayerStep "Z" 5 storeZero stateBuf "K").1 5
            = drawToNew (natOfQ layerBuf.width) (natOfQ layerBuf.height) (storeZero b)
        ∧ (duplicateLayerStep "Z" 5 storeZero stateBuf "K").1 b = storeZero b
        ∧ (∀ f : RasterBuffer,
            Function.update ((duplicateLayerStep "Z" 5 storeZero stateBuf "K").1) 5 f b
              = (duplicateLayerStep "Z" 5 storeZero stateBuf "K").1 b
            ∧ Function.update ((duplicateLayerStep "Z" 5 storeZero stateBuf "K").1) b f 5
              = (duplicateLayerStep "Z" 5 storeZero stateBuf "K").1 5)))
    ∧ stateBuf.layers.find? (fun l' => l'.id == "K") = some layerBuf :=
  ⟨duplicate_layer_spec "Z" 5 storeZero stateBuf "K" layerBuf (by decide) (by decide)
      (by decide),
    by decide⟩

/-- Witness for C10 at a concrete stroke on `stateBuf`. -/
theorem history_shallow_snapshots_witness :
    ((reducer "n" 9 stateBuf (.UPDATE_LAYER layerBuf.id emptyChanges)).layers
        = stateBuf.layers
    ∧ (reducer "n" 9 (reducer "n" 9 stateBuf (.UPDATE_LAYER layerBuf.id emptyChanges))
        .PUSH_HISTORY).history.getD
        (reducer "n" 9 (reducer "n" 9 stateBuf (.UPDATE_LAYER layerBuf.id emptyChanges))
          .PUSH_HISTORY).historyIndex [] = stateBuf.layers
    ∧ (reducer "n" 9 (reducer "n" 9 (reducer "n" 9 stateBuf
        (.UPDATE_LAYER layerBuf.id emptyChanges)) .PUSH_HISTORY) .UNDO).layers
        = stateBuf.layers
    ∧ layerBuf ∈ (reducer "n" 9 (reducer "n" 9 (reducer "n" 9 stateBuf
        (.UPDATE_LAYER layerBuf.id emptyChanges)) .PUSH_HISTORY) .UNDO).layers
    ∧ layerBuf.imageElement = some 0
    ∧ Function.update storeZero 0 { width := 1, height := 1, data := [9, 9, 9, 9] } 0
        = { width := 1, height := 1, data := [9, 9, 9, 9] }
    ∧ Function.update storeZero 0 { width := 1, height := 1, data := [9, 9, 9, 9] } 0
        ≠ storeZero 0)
    ∧ ({ width := 1, height := 1, data := [9, 9, 9, 9] } : RasterBuffer)
        ≠ storeZero 0 :=
  ⟨history_shallow_snapshots "n" 9 stateBuf storeZero layerBuf 0
      { width := 1, height := 1, data := [9, 9, 9, 9] } (by decide) (by decide)
      (by decide) (by decide) (by decide),
    by decide⟩

/-! ## Claim C7 — RGB-split glitch -/

/-- `applyGlitch` (`canvasUtils.ts` lines 334-366) acting on the flat RGBA
byte array of the image data.  The source loop walks the pixel starts
`i = 0, 4, 8, …` over the flat array and, with
`byteOffset = 4 * Math.floor(offset)`, writes
`data[i] = copy[i - byteOffset]` when `0 ≤ i - byteOffset < data.length`
(red from the left) and `data[i+2] = copy[(i + byteOffset) + 2]` when
`0 ≤ i + byteOffset < data.length` (blue from the right); green and alpha
bytes are never written, all reads come from the untouched `copy`, and
`offset ≤ 0` returns immediately.  Below the same assignments are expressed
per byte index `j` (`j = i` for red, `j = i + 2` for blue). -/
def applyGlitch (offset : ℚ) (data : List ℕ) : List ℕ :=
  if offset ≤ 0 then data
  else
    (List.range data.length).map (fun (j : ℕ) =>
      if j % 4 = 0 then
        if 0 ≤ (j : ℤ) - 4 * ⌊offset⌋ ∧ (j : ℤ) - 4 * ⌊offset⌋ < (data.length : ℤ) then
          data.getD ((j : ℤ) - 4 * ⌊offset⌋).toNat 0
        else data.getD j 0
      else if j % 4 = 2 then
        if 0 ≤ ((j : ℤ) - 2) + 4 * ⌊offset⌋
            ∧ ((j : ℤ) - 2) + 4 * ⌊offset⌋ < (data.length : ℤ) then
          data.getD ((((j : ℤ) - 2) + 4 * ⌊offset⌋).toNat + 2) 0
        else data.getD j 0
      else data.getD j 0)

/-- A 2×2 RGBA buffer with distinct bytes: pixel (x, y) has bytes
`10(y*2+x+1) + c`. -/
def glitchData : List ℕ :=
  [10, 11, 12, 13, 20, 21, 22, 23, 30, 31, 32, 33, 40, 41, 42, 43]

/-- Counterexample to claim C7 as stated: on a 2×2 buffer with offset 1, the
left sample of pixel (0, 1) lies outside its row, yet the red write is NOT
skipped — the code samples the flat array, so byte 8 (red of pixel (0, 1))
receives byte 4 (red of pixel (1, 0), the right edge of the previous row)
instead of keeping its original value. -/
theorem glitch_samples_cross_rows :
    (applyGlitch 1 glitchData).getD 8 0 = 20
    ∧ glitchData.getD 8 0 = 30
    ∧ (applyGlitch 1 glitchData).getD 8 0 ≠ glitchData.getD 8 0 := by
  decide

/-- Claim C7 (amended): for offset > 0 the glitch operator leaves green and
alpha of every pixel unchanged and shifts red/blue along the FLAT pixel
order: writing `k = ⌊offset⌋`, the red byte of linear pixel `p` becomes the
red byte of linear pixel `p - k` when `k ≤ p` (which crosses row
boundaries when the pixel is fewer than `k` columns from the left edge) and
keeps its original value only when `p < k` (the first `k` pixels of the
whole buffer); symmetrically blue takes from linear pixel `p + k` when
`p + k < w*h` and is skipped only on the last `k` pixels of the buffer.
There is no modular wrapping and no clamping to the buffer edge. -/
theorem applyGlitch_spec (w h : ℕ) (offset : ℚ) (data : List ℕ)
    (hlen : data.length = 4 * (w * h)) (hoff : 0 < offset) :
    (applyGlitch offset data).length = data.length
    ∧ (∀ j, j % 4 = 1 ∨ j % 4 = 3 →
        (applyGlitch offset data).getD j 0 = data.getD j 0)
    ∧ (∀ p, p < w * h →
        (applyGlitch offset data).getD (4 * p) 0
          = (if ⌊offset⌋.toNat ≤ p then data.getD (4 * (p - ⌊offset⌋.toNat)) 0
             else data.getD (4 * p) 0))
    ∧ (∀ p, p < w * h →
        (applyGlitch offset data).getD (4 * p + 2) 0
          = (if p + ⌊offset⌋.toNat < w * h then
              data.getD (4 * (p + ⌊offset⌋.toNat) + 2) 0
             else data.getD (4 * p + 2) 0)) := by
  have hne : ¬ offset ≤ 0 := not_le.2 hoff
  have hfl : 0 ≤ ⌊offset⌋ := Int.floor_nonneg.2 hoff.le
  have hlenout : (applyGlitch offset data).length = data.length := by
    unfold applyGlitch
    rw [if_neg hne, List.length_map, List.length_range]
  have hout : ∀ j, j < data.length → (applyGlitch offset data).getD j 0
      = (if j % 4 = 0 then
          if 0 ≤ (j : ℤ) - 4 * ⌊offset⌋ ∧ (j : ℤ) - 4 * ⌊offset⌋ < (data.length : ℤ) then
            data.getD ((j : ℤ) - 4 * ⌊offset⌋).toNat 0
          else data.getD j 0
        else if j % 4 = 2 then
          if 0 ≤ ((j : ℤ) - 2) + 4 * ⌊offset⌋
              ∧ ((j : ℤ) - 2) + 4 * ⌊offset⌋ < (data.length : ℤ) then
            data.getD ((((j : ℤ) - 2) + 4 * ⌊offset⌋).toNat + 2) 0
          else data.getD j 0
        else data.getD j 0) := by
    intro j hj
    unfold applyGlitch
    rw [if_neg hne, List.getD_eq_getElem?_getD, List.getElem?_map,
      List.getElem?_range hj]
    rfl
  refine ⟨hlenout, ?_, ?_, ?_⟩
  · intro j hj14
    by_cases hj : j < data.length
    · rw [hout j hj, if_neg (by omega), if_neg (by omega)]
    · rw [List.getD_eq_getElem?_getD, List.getD_eq_getElem?_getD,
        List.getElem?_eq_none (by omega : data.length ≤ j),
        List.getElem?_eq_none (by rw [hlenout]; omega)]
  · intro p hp
    have hj : 4 * p < data.length := by omega
    rw [hout (4 * p) hj, if_pos (by omega : 4 * p % 4 = 0)]
    by_cases hk : ⌊offset⌋.toNat ≤ p
    · rw [if_pos (by constructor <;> omega), if_pos hk,
        show (((4 * p : ℕ) : ℤ) - 4 * ⌊offset⌋).toNat = 4 * (p - ⌊offset⌋.toNat) by
          omega]
    · rw [if_neg (by omega), if_neg hk]
  · intro p hp
    have hj : 4 * p + 2 < data.length := by omega
    rw [hout (4 * p + 2) hj, if_neg (by omega : ¬ (4 * p + 2) % 4 = 0),
      if_pos (by omega : (4 * p + 2) % 4 = 2)]
    by_cases hk : p + ⌊offset⌋.toNat < w * h
    · rw [if_pos (by constructor <;> omega), if_pos hk,
        show ((((4 * p + 2 : ℕ) : ℤ) - 2) + 4 * ⌊offset⌋).toNat + 2
            = 4 * (p + ⌊offset⌋.toNat) + 2 by omega]
    · rw [if_neg (by omega), if_neg hk]

/-- Witness for the amended C7 on the concrete 2×2 buffer with offset 1. -/
theorem applyGlitch_spec_witness :
    ((applyGlitch 1 glitchData).length = glitchData.length
    ∧ (∀ j, j % 4 = 1 ∨ j % 4 = 3 →
        (applyGlitch 1 glitchData).getD j 0 = glitchData.getD j 0)
    ∧ (∀ p, p < 2 * 2 →
        (applyGlitch 1 glitchData).getD (4 * p) 0
          = (if ⌊(1 : ℚ)⌋.toNat ≤ p then
              glitchData.getD (4 * (p - ⌊(1 : ℚ)⌋.toNat)) 0
             else glitchData.getD (4 * p) 0))
    ∧ (∀ p, p < 2 * 2 →
        (applyGlitch 1 glitchData).getD (4 * p + 2) 0
          = (if p + ⌊(1 : ℚ)⌋.toNat < 2 * 2 then
              glitchData.getD (4 * (p + ⌊(1 : ℚ)⌋.toNat) + 2) 0
             else glitchData.getD (4 * p + 2) 0)))
    ∧ glitchData.length = 4 * (2 * 2) ∧ (0 : ℚ) < 1 :=
  ⟨applyGlitch_spec 2 2 1 glitchData (by decide) (by decide), by decide, by decide⟩

/-! ## Claim C8 — warp-quad initialization -/

/-- The `rotatePoint` closure of `handleWarpTool` (`part_000` lines
648-655): rotate `(px, py)` about the box center `(cx, cy)` by the angle
whose cosine/sine values are `cosv`/`sinv` (the source computes
`cos = Math.cos(ang)`, `sin = Math.sin(ang)` once and then uses exact
rational arithmetic). -/
def rotatePoint (cx cy cosv sinv px py : ℚ) : Point :=
  { x := cx + (px - cx) * cosv - (py - cy) * sinv,
    y := cy + (px - cx) * sinv + (py - cy) * cosv }

/-- The initial warp quad of `handleWarpTool` (`part_000` lines 636-662):
the four un-rotated bounding-box corners rotated about the box center. -/
def initialWarpPoints (x y w h cosv sinv : ℚ) : WarpPoints :=
  { tl := rotatePoint (x + w/2) (y + h/2) cosv sinv x y,
    tr := rotatePoint (x + w/2) (y + h/2) cosv sinv (x + w) y,
    bl := rotatePoint (x + w/2) (y + h/2) cosv sinv x (y + h),
    br := rotatePoint (x + w/2) (y + h/2) cosv sinv (x + w) (y + h) }

/-- Squared Euclidean distance between two points. -/
def distSq (p q : Point) : ℚ := (p.x - q.x)^2 + (p.y - q.y)^2

/-- The `UPDATE_LAYER` payload dispatched by `handleWarpTool`:
`{ warpPoints: initialWarp }`. -/
def warpChanges (wp : WarpPoints) : LayerChanges :=
  { emptyChanges with warpPoints := some (some wp) }

/-- `handleWarpTool` (`part_000` lines 629-667): no-op without an active
image/drawing layer; otherwise, when the layer has no warp quad yet,
dispatch `UPDATE_LAYER` installing the initial quad, then set the tool. -/
def handleWarpTool (now : String) (fresh : ℕ) (cosv sinv : ℚ) (s : EState) : EState :=
  match s.activeLayerId with
  | none => s
  | some aid =>
      match s.layers.find? (fun l => l.id == aid) with
      | none => s
      | some l =>
          if l.type ≠ LayerType.image ∧ l.type ≠ LayerType.drawing then s
          else
            reducer now fresh
              (if l.warpPoints = none then
                reducer now fresh s (.UPDATE_LAYER aid
                  (warpChanges (initialWarpPoints l.x l.y l.width l.height cosv sinv)))
              else s)
              (.SET_TOOL "warp")

/-- Rotation about a center preserves the squared distance to that center
when `cosv² + sinv² = 1`. -/
theorem rotatePoint_distSq (cx cy cosv sinv px py : ℚ)
    (hcs : cosv^2 + sinv^2 = 1) :
    distSq (rotatePoint cx cy cosv sinv px py) { x := cx, y := cy }
      = (px - cx)^2 + (py - cy)^2 := by
  show (cx + (px - cx) * cosv - (py - cy) * sinv - cx)^2
      + (cy + (px - cx) * sinv + (py - cy) * cosv - cy)^2
    = (px - cx)^2 + (py - cy)^2
  linear_combination ((px - cx)^2 + (py - cy)^2) * hcs

/-- Claim C8: for an active image/drawing layer with no existing warp quad,
activating the warp tool installs on that layer the quad whose corners are
the four un-rotated bounding-box corners each rotated about the box center
by the layer rotation (given through its cosine/sine values satisfying
`cosv² + sinv² = 1`); for rotation 0 (`cosv = 1`, `sinv = 0`) the corners
are exactly (x,y), (x+w,y), (x,y+h), (x+w,y+h); and every corner's squared
distance from the box center is `(w/2)² + (h/2)²` (i.e. the distance is
`hypot(w/2, h/2)`). -/
theorem warp_quad_init (now : String) (fresh : ℕ) (cosv sinv : ℚ) (s : EState)
    (aid : String) (l : Layer)
    (hact : s.activeLayerId = some aid)
    (hfind : s.layers.find? (fun l' => l'.id == aid) = some l)
    (htype : l.type = LayerType.image ∨ l.type = LayerType.drawing)
    (hwp : l.warpPoints = none)
    (hcs : cosv^2 + sinv^2 = 1) :
    ((handleWarpTool now fresh cosv sinv s).layers.find? (fun l' => l'.id == aid))
        = some { l with warpPoints := some (initialWarpPoints l.x l.y l.width l.height cosv sinv) }
    ∧ (∀ x y w h : ℚ, initialWarpPoints x y w h 1 0 =
        { tl := { x := x, y := y }, tr := { x := x + w, y := y },
          bl := { x := x, y := y + h }, br := { x := x + w, y := y + h } })
    ∧ distSq (initialWarpPoints l.x l.y l.width l.height cosv sinv).tl
        { x := l.x + l.width/2, y := l.y + l.height/2 }
      = (l.width/2)^2 + (l.height/2)^2
    ∧ distSq (initialWarpPoints l.x l.y l.width l.height cosv sinv).tr
        { x := l.x + l.width/2, y := l.y + l.height/2 }
      = (l.width/2)^2 + (l.height/2)^2
    ∧ distSq (initialWarpPoints l.x l.y l.width l.height cosv sinv).bl
        { x := l.x + l.width/2, y := l.y + l.height/2 }
      = (l.width/2)^2 + (l.height/2)^2
    ∧ distSq (initialWarpPoints l.x l.y l.width l.height cosv sinv).br
        { x := l.x + l.width/2, y := l.y + l.height/2 }
      = (l.width/2)^2 + (l.height/2)^2 := by
  have hstep : handleWarpTool now fresh cosv sinv s
      = reducer now fresh (reducer now fresh s (.UPDATE_LAYER aid
          (warpChanges (initialWarpPoints l.x l.y l.width l.height cosv sinv))))
        (.SET_TOOL "warp") := by
    unfold handleWarpTool
    rw [hact]
    show (match s.layers.find? (fun l' => l'.id == aid) with
      | none => s
      | some l =>
          if l.type ≠ LayerType.image ∧ l.type ≠ LayerType.drawing then s
          else
            reducer now fresh
              (if l.warpPoints = none then
                reducer now fresh s (.UPDATE_LAYER aid
                  (warpChanges (initialWarpPoints l.x l.y l.width l.height cosv sinv)))
              else s)
              (.SET_TOOL "warp")) = _
    rw [hfind]
    show (if l.type ≠ LayerType.image ∧ l.type ≠ LayerType.drawing then s
      else
        reducer now fresh
          (if l.warpPoints = none then
            reducer now fresh s (.UPDATE_LAYER aid
              (warpChanges (initialWarpPoints l.x l.y l.width l.height cosv sinv)))
          else s)
          (.SET_TOOL "warp")) = _
    rw [if_neg (by
        intro hc
        rcases htype with h | h
        · exact hc.1 h
        · exact hc.2 h),
      if_pos hwp]
  constructor
  · rw [hstep]
    show ((s.layers.map (fun l' => if l'.id == aid then
        applyChanges l' (warpChanges (initialWarpPoints l.x l.y l.width l.height cosv sinv))
      else l')).find? (fun l' => l'.id == aid)) = _
    rw [List.find?_map]
    have hpg : ((fun l' : Layer => l'.id == aid) ∘ (fun l' : Layer => if l'.id == aid then
        applyChanges l' (warpChanges (initialWarpPoints l.x l.y l.width l.height cosv sinv))
      else l')) = (fun l' : Layer => l'.id == aid) := by
      funext l'
      show ((if l'.id == aid then applyChanges l'
          (warpChanges (initialWarpPoints l.x l.y l.width l.height cosv sinv))
        else l').id == aid) = (l'.id == aid)
      by_cases hc : (l'.id == aid) = true
      · rw [if_pos hc]
        rfl
      · rw [if_neg hc]
    rw [hpg, hfind]
    show some (if l.id == aid then applyChanges l
        (warpChanges (initialWarpPoints l.x l.y l.width l.height cosv sinv))
      else l) = _
    rw [if_pos (List.find?_some hfind)]
    rfl
  refine ⟨?_, ?_, ?_, ?_, ?_⟩
  · intro x y w h
    show WarpPoints.mk
        (rotatePoint (x + w/2) (y + h/2) 1 0 x y)
        (rotatePoint (x + w/2) (y + h/2) 1 0 (x + w) y)
        (rotatePoint (x + w/2) (y + h/2) 1 0 x (y + h))
        (rotatePoint (x + w/2) (y + h/2) 1 0 (x + w) (y + h)) = _
    unfold rotatePoint
    congr 1 <;> · congr 1 <;> ring
  · rw [show (initialWarpPoints l.x l.y l.width l.height cosv sinv).tl
        = rotatePoint (l.x + l.width/2) (l.y + l.height/2) cosv sinv l.x l.y from rfl,
      rotatePoint_distSq _ _ _ _ _ _ hcs]
    ring
  · rw [show (initialWarpPoints l.x l.y l.width l.height cosv sinv).tr
        = rotatePoint (l.x + l.width/2) (l.y + l.height/2) cosv sinv (l.x + l.width) l.y
        from rfl,
      rotatePoint_distSq _ _ _ _ _ _ hcs]
    ring
  · rw [show (initialWarpPoints l.x l.y l.width l.height cosv sinv).bl
        = rotatePoint (l.x + l.width/2) (l.y + l.height/2) cosv sinv l.x (l.y + l.height)
        from rfl,
      rotatePoint_distSq _ _ _ _ _ _ hcs]
    ring
  · rw [show (initialWarpPoints l.x l.y l.width l.height cosv sinv).br
        = rotatePoint (l.x + l.width/2) (l.y + l.height/2) cosv sinv (l.x + l.width)
          (l.y + l.height) from rfl,
      rotatePoint_distSq _ _ _ _ _ _ hcs]
    ring

/-- Witness for C8 at a concrete state and rotation 0. -/
theorem warp_quad_init_witness :
    (((handleWarpTool "n" 7 1 0 stateBuf).layers.find? (fun l' => l'.id == "K"))
        = some { layerBuf with warpPoints := some (initialWarpPoints layerBuf.x layerBuf.y layerBuf.width layerBuf.height 1 0) }
    ∧ (∀ x y w h : ℚ, initialWarpPoints x y w h 1 0 =
        { tl := { x := x, y := y }, tr := { x := x + w, y := y },
          bl := { x := x, y := y + h }, br := { x := x + w, y := y + h } })
    ∧ distSq (initialWarpPoints layerBuf.x layerBuf.y layerBuf.width layerBuf.height 1 0).tl
        { x := layerBuf.x + layerBuf.width/2, y := layerBuf.y + layerBuf.height/2 }
      = (layerBuf.width/2)^2 + (layerBuf.height/2)^2
    ∧ distSq (initialWarpPoints layerBuf.x layerBuf.y layerBuf.width layerBuf.height 1 0).tr
        { x := layerBuf.x + layerBuf.width/2, y := layerBuf.y + layerBuf.height/2 }
      = (layerBuf.width/2)^2 + (layerBuf.height/2)^2
    ∧ distSq (initialWarpPoints layerBuf.x layerBuf.y layerBuf.width layerBuf.height 1 0).bl
        { x := layerBuf.x + layerBuf.width/2, y := layerBuf.y + layerBuf.height/2 }
      = (layerBuf.width/2)^2 + (layerBuf.height/2)^2
    ∧ distSq (initialWarpPoints layerBuf.x layerBuf.y layerBuf.width layerBuf.height 1 0).br
        { x := layerBuf.x + layerBuf.width/2, y := layerBuf.y + layerBuf.height/2 }
      = (layerBuf.width/2)^2 + (layerBuf.height/2)^2)
    ∧ stateBuf.activeLayerId = some "K"
    ∧ layerBuf.warpPoints = none :=
  ⟨warp_quad_init "n" 7 1 0 stateBuf "K" layerBuf (by decide) (by decide)
      (Or.inr (by decide)) (by decide) (by norm_num),
    by decide, by decide⟩

/-! ## Claim C9 — warp renderer degenerate-geometry guards -/

/-- One call to `renderTriangleFixed` (its arguments): the padded source
sub-rectangle origin/size, the three destination points, and the
upper/lower flag.  `renderWarpedLayer` draws exactly this list of
triangles. -/
structure TriangleCall where
  sx : ℚ
  sy : ℚ
  sw : ℚ
  sh : ℚ
  p0 : Point
  p1 : Point
  p2 : Point
  isUpper : Bool
deriving DecidableEq

/-- `lerp` (`canvasUtils.ts` line 16). -/
def lerp (a b t : ℚ) : ℚ := a + (b - a) * t

/-- `getWarpedPoint` (`canvasUtils.ts` lines 18-32): bilinear interpolation
of the quad corners. -/
def getWarpedPoint (u v : ℚ) (wp : WarpPoints) : Point :=
  { x := lerp (lerp wp.tl.x wp.tr.x u) (lerp wp.bl.x wp.br.x u) v,
    y := lerp (lerp wp.tl.y wp.tr.y u) (lerp wp.bl.y wp.br.y u) v }

/-- `renderWarpedLayer` (`canvasUtils.ts` lines 34-80) as the list of
triangle-draw calls it issues.  `GRID_SIZE = 20`; the grid steps in source
pixels are `originalWidth / 20` and `originalHeight / 20` (inlined below),
and when either is ≤ 0.001 the whole render is skipped (the early
`return`, line 52, yields the empty call list). -/
def renderWarpedLayer (wp : WarpPoints) (originalWidth originalHeight : ℚ) :
    List TriangleCall :=
  if originalWidth / 20 ≤ 1/1000 ∨ originalHeight / 20 ≤ 1/1000 then []
  else
    (List.range 20).flatMap (fun y =>
      (List.range 20).flatMap (fun x =>
        let u0 : ℚ := x * (1/20)
        let v0 : ℚ := y * (1/20)
        let u1 : ℚ := u0 + 1/20
        let v1 : ℚ := v0 + 1/20
        [{ sx := u0 * originalWidth, sy := v0 * originalHeight,
           sw := originalWidth / 20, sh := originalHeight / 20,
           p0 := getWarpedPoint u0 v0 wp, p1 := getWarpedPoint u1 v0 wp,
           p2 := getWarpedPoint u0 v1 wp, isUpper := true },
         { sx := u0 * originalWidth, sy := v0 * originalHeight,
           sw := originalWidth / 20, sh := originalHeight / 20,
           p0 := getWarpedPoint u1 v1 wp, p1 := getWarpedPoint u1 v0 wp,
           p2 := getWarpedPoint u0 v1 wp, isUpper := false }]))

/-- Centroid of the clipping triangle (`renderTriangleFixed`,
`canvasUtils.ts` lines 92-93). -/
def triCentroid (p0 p1 p2 : Point) : Point :=
  { x := (p0.x + p1.x + p2.x) / 3, y := (p0.y + p1.y + p2.y) / 3 }

/-- The `bloat` closure of `renderTriangleFixed` (`canvasUtils.ts` lines
97-105): push a vertex outward from the centroid `c` by 0.6 px, normalized
by the vertex's distance `len` from the centroid; when `len < 0.1` the
vertex is returned untransformed (the divide-by-zero guard).  `len` stands
for `Math.sqrt(dx*dx + dy*dy)` and enters as a parameter characterized by
`0 ≤ len` and `len * len = dx² + dy²`. -/
def bloat (c : Point) (len : ℚ) (p : Point) : Point :=
  if len < 1/10 then p
  else
    { x := c.x + (p.x - c.x) * (1 + (3/5) / len),
      y := c.y + (p.y - c.y) * (1 + (3/5) / len) }

/-- Claim C9: the warp renderer and its triangle-bloat math are total under
degenerate geometry — whenever a grid step in source pixels is ≤ 0.001 the
entire warp render issues no draw call, and whenever a vertex's distance
from the triangle centroid is below the 0.1 guard threshold the bloat
function returns the vertex untransformed instead of dividing by the
(near-)zero length. -/
theorem warp_degenerate_guards :
    (∀ (wp : WarpPoints) (ow oh : ℚ), ow / 20 ≤ 1/1000 ∨ oh / 20 ≤ 1/1000 →
        renderWarpedLayer wp ow oh = [])
    ∧ (∀ (p0 p1 p2 p : Point) (len : ℚ), 0 ≤ len →
        len * len = distSq p (triCentroid p0 p1 p2) →
        distSq p (triCentroid p0 p1 p2) < 1/100 →
        bloat (triCentroid p0 p1 p2) len p = p) := by
  constructor
  · intro wp ow oh hdeg
    unfold renderWarpedLayer
    rw [if_pos hdeg]
  · intro p0 p1 p2 p len h0 hlen hsmall
    have hlt : len < 1/10 := by nlinarith [hlen, hsmall, h0]
    unfold bloat
    rw [if_pos hlt]

/-- Witness for C9: a zero-width source skips the render, and a vertex at
the centroid is returned untransformed. -/
theorem warp_degenerate_guards_witness :
    renderWarpedLayer
        { tl := { x := 0, y := 0 }, tr := { x := 1, y := 0 },
          bl := { x := 0, y := 1 }, br := { x := 1, y := 1 } } 0 100 = []
    ∧ bloat (triCentroid { x := 0, y := 0 } { x := 0, y := 0 } { x := 0, y := 0 }) 0
        { x := 0, y := 0 } = { x := 0, y := 0 }
    ∧ (0 : ℚ) / 20 ≤ 1/1000 :=
  ⟨warp_degenerate_guards.1
      { tl := { x := 0, y := 0 }, tr := { x := 1, y := 0 },
        bl := { x := 0, y := 1 }, br := { x := 1, y := 1 } } 0 100
      (Or.inl (by norm_num)),
    warp_degenerate_guards.2 { x := 0, y := 0 } { x := 0, y := 0 } { x := 0, y := 0 }
      { x := 0, y := 0 } 0 le_rfl
      (by norm_num [distSq, triCentroid])
      (by norm_num [distSq, triCentroid]),
    by norm_num⟩
